import Mathlib

/-!
QHidApi: the device-handle registry of `QHidApiPrivate`.

A shallow embedding of `src/qhidapi_p.cpp`.  The registry state is the
`QHidApiPrivate` member set; the native hidapi library is an external
collaborator, so every operation takes the answer the native call would give
(were it made) as an argument and returns, next to its C++ result, the list of
native calls it actually issued.  The table model of
`src/qhiddeviceinfomodel.cpp` is embedded as pure functions of its `m_data`.

Conventions
* `hid_device*` is an address, `NULL` is address `0`.
* `quint32` handles and the `mNextId` counter are naturals; the post-increment
  in `nextId` is taken modulo `2^32`.
* `ushort` vendor / product ids are naturals supplied by the caller.
* `QByteArray` is a list of byte values, `QString` is `String`.
-/

namespace QHidApi

/-! ## Qt containers -/

/-- The `QMap<K,V>` container: one value per key.  The code only uses
`contains`, `value` and `insert`, none of which observes iteration order. -/
abbrev QMap (K V : Type) := List (K × V)

namespace QMap

variable {K V : Type} [DecidableEq K]

/-- The member `QMap::contains(key)`. -/
def contains (m : QMap K V) (k : K) : Bool :=
  m.any (fun e => decide (e.1 = k))

/-- The member `QMap::value(key, defaultValue)`. -/
def value (m : QMap K V) (k : K) (dflt : V) : V :=
  match m.find? (fun e => decide (e.1 = k)) with
  | some e => e.2
  | none => dflt

/-- The member `QMap::insert(key, value)`: an existing value for the key is replaced. -/
def insert (m : QMap K V) (k : K) (v : V) : QMap K V :=
  (k, v) :: m.filter (fun e => decide (e.1 ≠ k))

end QMap

/-- The `QMultiMap<ushort,V>` container: items sorted by key, items of equal key
ordered from the most recently inserted to the least recently inserted. -/
abbrev QMultiMap (V : Type) := List (Nat × V)

namespace QMultiMap

variable {V : Type}

/-- The member `QMultiMap::insert(key, value)`: always adds a new item, placed
before the existing items of the same key. -/
def insert : QMultiMap V → Nat → V → QMultiMap V
  | [], k, v => [(k, v)]
  | (k', w) :: rest, k, v =>
    if k' < k then (k', w) :: insert rest k v else (k, v) :: (k', w) :: rest

/-- The member `QMultiMap::values(key)`: most recently inserted first. -/
def values (m : QMultiMap V) (k : Nat) : List V :=
  (m.filter (fun e => decide (e.1 = k))).map (fun e => e.2)

end QMultiMap

/-- The `QVariant` values the code builds: `QVariant(quint32)` has type
`QVariant::UInt`, `QVariant(QString)` has type `QVariant::String` (the two
payloads the registry stores); `QVariant()` is the invalid variant and a
`ushort` argument is promoted to `int`, giving type `QVariant::Int` (both used
by the table model). -/
inductive QVariant where
  | uint (id : Nat)
  | string (sn : String)
  | invalid
  | int (n : Int)
  deriving DecidableEq, Repr

/-! ## Native boundary -/

/-- A `hid_device*`: an address, with `NULL` the address `0`. -/
abbrev HidDevice := Nat

/-- The null device pointer. -/
def NULL : HidDevice := 0

/-- Contents of a `QByteArray`. -/
abbrev QByteArray := List Nat

/-- The native `struct hid_device_info` (one node of the list `hid_enumerate`
returns; the `next` pointer is the tail of the list).  Native strings are given
decoded, a null pointer as the empty string. -/
structure hid_device_info where
  path : String
  vendor_id : Nat
  product_id : Nat
  serial_number : String
  release_number : Nat
  manufacturer_string : String
  product_string : String
  usage_page : Nat
  usage : Nat
  interface_number : Int
  deriving DecidableEq, Repr

/-- The struct `QHidDeviceInfo` (`qhiddeviceinfo.h`).  `usagePage` and `usage`
exist only in a Windows or Mac build; `none` stands for the absent member. -/
structure QHidDeviceInfo where
  path : String
  vendorId : Nat
  productId : Nat
  serialNumber : String
  releaseNumber : Nat
  manufacturerString : String
  productString : String
  usagePage : Option Nat
  usage : Option Nat
  interfaceNumber : Int
  deriving DecidableEq, Repr

/-- A call into the native hidapi library, with the arguments passed. -/
inductive NativeCall where
  | hid_open (vendorId productId : Nat) (serialNumber : Option String)
  | hid_open_path (path : String)
  | hid_close (dev : HidDevice)
  | hid_read (dev : HidDevice) (length : Nat)
  | hid_read_timeout (dev : HidDevice) (length : Nat) (milliseconds : Int)
  | hid_get_feature_report (dev : HidDevice) (reportId : Nat) (length : Nat)
  | hid_send_feature_report (dev : HidDevice) (data : QByteArray) (length : Nat)
  | hid_write (dev : HidDevice) (data : QByteArray) (length : Nat)
  | hid_error (dev : HidDevice)
  | hid_set_nonblocking (dev : HidDevice) (nonblock : Int)
  | hid_get_manufacturer_string (dev : HidDevice) (maxlen : Nat)
  | hid_get_product_string (dev : HidDevice) (maxlen : Nat)
  | hid_get_serial_number_string (dev : HidDevice) (maxlen : Nat)
  | hid_get_indexed_string (dev : HidDevice) (stringIndex : Int) (maxlen : Nat)
  | hid_enumerate (vendorId productId : Nat)
  | hid_free_enumeration (devs : List hid_device_info)
  deriving DecidableEq, Repr

/-! ## Registry state -/

/-- The registry members of `QHidApiPrivate` (`qhidapi_p.h`). -/
structure QHidApiPrivate where
  /-- Counter `quint32 mNextId`. -/
  mNextId : Nat
  /-- Table `QMultiMap<ushort, QMultiMap<ushort, QVariant>> mVendorMap`. -/
  mVendorMap : QMultiMap (QMultiMap QVariant)
  /-- Table `QMap<QString, quint32> mSerDevices`: serial number to id. -/
  mSerDevices : QMap String Nat
  /-- Table `QMap<QString, quint32> mPathMap`: path to id. -/
  mPathMap : QMap String Nat
  /-- Table `QMap<quint32, hid_device*> mIdDeviceMap`: id to device. -/
  mIdDeviceMap : QMap Nat HidDevice
  /-- Table `QMap<hid_device*, quint32> mDeviceIdMap`: device to id. -/
  mDeviceIdMap : QMap HidDevice Nat
  deriving DecidableEq, Repr

namespace QHidApiPrivate

/-- The constructor `QHidApiPrivate::QHidApiPrivate`: `mNextId(1)`, every table empty. -/
def construct : QHidApiPrivate :=
  { mNextId := 1, mVendorMap := [], mSerDevices := [], mPathMap := [],
    mIdDeviceMap := [], mDeviceIdMap := [] }

/-- The method `nextId`: `return mNextId++;` on a `quint32`. -/
def nextId (st : QHidApiPrivate) : Nat × QHidApiPrivate :=
  (st.mNextId, { st with mNextId := (st.mNextId + 1) % 2 ^ 32 })

/-- The method `findId`: the device stored for `id`, `NULL` when `id` is no key. -/
def findId (st : QHidApiPrivate) (id : Nat) : HidDevice :=
  if st.mIdDeviceMap.contains id then st.mIdDeviceMap.value id NULL else NULL

/-- The method `close`: `hid_close` on the device when `findId` resolves, nothing
otherwise.  No member is written. -/
def close (st : QHidApiPrivate) (id : Nat) : QHidApiPrivate × List NativeCall :=
  let dev := findId st id
  if dev ≠ NULL then (st, [NativeCall.hid_close dev]) else (st, [])

/-- The method `openNewProduct`.  `device` is what `hid_open` answers. -/
def openNewProduct (st : QHidApiPrivate) (vendorId productId : Nat) (serialNumber : String)
    (device : HidDevice) : Nat × QHidApiPrivate × List NativeCall :=
  if serialNumber.isEmpty then
    if device ≠ NULL then
      let (id, st1) := nextId st
      let pmap : QMultiMap QVariant := QMultiMap.insert [] productId (QVariant.uint id)
      (id,
       { st1 with
          mVendorMap := QMultiMap.insert st1.mVendorMap vendorId pmap
          mIdDeviceMap := QMap.insert st1.mIdDeviceMap id device
          mDeviceIdMap := QMap.insert st1.mDeviceIdMap device id },
       [NativeCall.hid_open vendorId productId none])
    else (0, st, [NativeCall.hid_open vendorId productId none])
  else
    if device ≠ NULL then
      let (id, st1) := nextId st
      let pmap : QMultiMap QVariant := QMultiMap.insert [] productId (QVariant.string serialNumber)
      (id,
       { st1 with
          mVendorMap := QMultiMap.insert st1.mVendorMap vendorId pmap
          mSerDevices := QMap.insert st1.mSerDevices serialNumber id
          mIdDeviceMap := QMap.insert st1.mIdDeviceMap id device
          mDeviceIdMap := QMap.insert st1.mDeviceIdMap device id },
       [NativeCall.hid_open 0x4d8 0xf1fa none])
    else (0, st, [NativeCall.hid_open 0x4d8 0xf1fa none])

/-- Inner loop of `openProduct` over one product map: `some id` when the loop
executes `return id`, `none` when it runs to its end. -/
def openProduct_pmapLoop (st : QHidApiPrivate) (productId : Nat) :
    List (Nat × QVariant) → Option Nat
  | [] => none
  | (p, v) :: rest =>
    if p = productId then
      match v with
      | QVariant.uint id =>
        if st.mIdDeviceMap.contains id then some id
        else openProduct_pmapLoop st productId rest
      | QVariant.string sn => some (st.mSerDevices.value sn 0)
      | _ => openProduct_pmapLoop st productId rest
    else openProduct_pmapLoop st productId rest

/-- Outer loop of `openProduct` over the product maps of the vendor. -/
def openProduct_vmapLoop (st : QHidApiPrivate) (productId : Nat) :
    List (QMultiMap QVariant) → Option Nat
  | [] => none
  | pmap :: rest =>
    match openProduct_pmapLoop st productId pmap with
    | some id => some id
    | none => openProduct_vmapLoop st productId rest

/-- The method `openProduct`: search the vendor table, fall back on `openNewProduct`. -/
def openProduct (st : QHidApiPrivate) (vendorId productId : Nat) (serialNumber : String)
    (device : HidDevice) : Nat × QHidApiPrivate × List NativeCall :=
  match openProduct_vmapLoop st productId (st.mVendorMap.values vendorId) with
  | some id => (id, st, [])
  | none => openNewProduct st vendorId productId serialNumber device

/-- The method `open(ushort vendorId, ushort productId, QString serialNumber)`. -/
def openVidPid (st : QHidApiPrivate) (vendorId productId : Nat) (serialNumber : String)
    (device : HidDevice) : Nat × QHidApiPrivate × List NativeCall :=
  if (st.mVendorMap.values vendorId).isEmpty then
    openNewProduct st vendorId productId serialNumber device
  else
    openProduct st vendorId productId serialNumber device

/-- The method `open(QString path)`.  `device` is what `hid_open_path` answers. -/
def openPath (st : QHidApiPrivate) (path : String) (device : HidDevice) :
    Nat × QHidApiPrivate × List NativeCall :=
  if st.mPathMap.contains path then (st.mPathMap.value path 0, st, [])
  else if device = NULL then (0, st, [NativeCall.hid_open_path path])
  else if st.mDeviceIdMap.contains device then
    (st.mDeviceIdMap.value device 0, st, [NativeCall.hid_open_path path])
  else
    let (id, st1) := nextId st
    (id,
     { st1 with
        mIdDeviceMap := QMap.insert st1.mIdDeviceMap id device
        mDeviceIdMap := QMap.insert st1.mDeviceIdMap device id
        mPathMap := QMap.insert st1.mPathMap path id },
     [NativeCall.hid_open_path path])

/-- The method `read(quint32 id)`.  `native = (rep, buf)`: the return code of
`hid_read` and the 65-byte buffer as the native layer left it.  The native layer
is told the length 65, so `QByteArray(buf, rep)` is the first `rep` bytes of
`buf` for every return code it may give (`rep <= 65`). -/
def read (st : QHidApiPrivate) (id : Nat) (native : Int × QByteArray) :
    QByteArray × List NativeCall :=
  let device := findId st id
  if device ≠ NULL then
    if native.1 > 0 then (native.2.take native.1.toNat, [NativeCall.hid_read device 65])
    else ([], [NativeCall.hid_read device 65])
  else ([], [])

/-- The method `read(quint32 id, int timeout)`. -/
def readTimeout (st : QHidApiPrivate) (id : Nat) (timeout : Int) (native : Int × QByteArray) :
    QByteArray × List NativeCall :=
  let device := findId st id
  if device ≠ NULL then
    if native.1 > 0 then
      (native.2.take native.1.toNat, [NativeCall.hid_read_timeout device 65 timeout])
    else ([], [NativeCall.hid_read_timeout device 65 timeout])
  else ([], [])

/-- The method `featureReport(quint32 id, uint reportId)`: `buf[0] = reportId`
stores the low byte of `reportId` in an `unsigned char`. -/
def featureReport (st : QHidApiPrivate) (id : Nat) (reportId : Nat) (native : Int × QByteArray) :
    QByteArray × List NativeCall :=
  let device := findId st id
  if device ≠ NULL then
    if native.1 > 0 then
      (native.2.take native.1.toNat, [NativeCall.hid_get_feature_report device (reportId % 256) 65])
    else ([], [NativeCall.hid_get_feature_report device (reportId % 256) 65])
  else ([], [])

/-- The method `sendFeatureReport(quint32 id, quint8 reportId, QByteArray data)`.
`rep` is what `hid_send_feature_report` answers. -/
def sendFeatureReport (st : QHidApiPrivate) (id : Nat) (reportId : Nat) (data : QByteArray)
    (rep : Int) : Int × List NativeCall :=
  if data.length > 64 then (-1, [])
  else
    let device := findId st id
    if device ≠ NULL then
      let data1 := reportId :: data
      (rep, [NativeCall.hid_send_feature_report device data1 data1.length])
    else (-1, [])

/-- The method `write(quint32 id, QByteArray data, quint8 reportNumber)`.
`rep` is what `hid_write` answers. -/
def writeReport (st : QHidApiPrivate) (id : Nat) (data : QByteArray) (reportNumber : Nat)
    (rep : Int) : Int × List NativeCall :=
  if data.length > 64 then (-1, [])
  else
    let device := findId st id
    if device ≠ NULL then
      let data1 := reportNumber :: data
      (rep, [NativeCall.hid_write device data1 data1.length])
    else (-1, [])

/-- The method `write(quint32 id, QByteArray data)`. -/
def write (st : QHidApiPrivate) (id : Nat) (data : QByteArray) (rep : Int) :
    Int × List NativeCall :=
  if data.length > 65 then (-1, [])
  else
    let device := findId st id
    if device ≠ NULL then (rep, [NativeCall.hid_write device data data.length])
    else (-1, [])

/-- The method `error(quint32 id)`.  `errorString` is what `hid_error` answers
(`none` for a null `wchar_t*`, which `fromWCharArray` turns into the empty string). -/
def error (st : QHidApiPrivate) (id : Nat) (errorString : Option String) :
    String × List NativeCall :=
  let device := findId st id
  if device ≠ NULL then (errorString.getD "", [NativeCall.hid_error device])
  else ("", [])

/-- The constant `MAX_STR`. -/
def MAX_STR : Nat := 255

/-- The method `manufacturerString`.  `native = (rep, buf)`: the return code of
`hid_get_manufacturer_string` and the string it left in `buf`.  The device found
is handed to the native call without a null check. -/
def manufacturerString (st : QHidApiPrivate) (id : Nat) (native : Int × String) :
    String × List NativeCall :=
  let dev := findId st id
  (if native.1 ≠ -1 then native.2 else "", [NativeCall.hid_get_manufacturer_string dev MAX_STR])

/-- The method `productString`. -/
def productString (st : QHidApiPrivate) (id : Nat) (native : Int × String) :
    String × List NativeCall :=
  let dev := findId st id
  (if native.1 ≠ -1 then native.2 else "", [NativeCall.hid_get_product_string dev MAX_STR])

/-- The method `serialNumberString`. -/
def serialNumberString (st : QHidApiPrivate) (id : Nat) (native : Int × String) :
    String × List NativeCall :=
  let dev := findId st id
  (if native.1 ≠ -1 then native.2 else "", [NativeCall.hid_get_serial_number_string dev MAX_STR])

/-- The method `indexedString`. -/
def indexedString (st : QHidApiPrivate) (id : Nat) (index : Int) (native : Int × String) :
    String × List NativeCall :=
  let dev := findId st id
  (if native.1 ≠ -1 then native.2 else "",
   [NativeCall.hid_get_indexed_string dev index MAX_STR])

/-- The method `setBlocking`: `hid_set_nonblocking(device, 1)`, result `!!rep`.
`rep` is what the native call answers (`0` on success, `-1` on error). -/
def setBlocking (st : QHidApiPrivate) (id : Nat) (rep : Int) : Bool × List NativeCall :=
  let device := findId st id
  (decide (rep ≠ 0), [NativeCall.hid_set_nonblocking device 1])

/-- The method `setNonBlocking`: `hid_set_nonblocking(device, 0)`, result `!!rep`. -/
def setNonBlocking (st : QHidApiPrivate) (id : Nat) (rep : Int) : Bool × List NativeCall :=
  let device := findId st id
  (decide (rep ≠ 0), [NativeCall.hid_set_nonblocking device 0])

/-- The member `QList::clear()`. -/
def clear (_l : List QHidDeviceInfo) : List QHidDeviceInfo := []

/-- Body of the `while (info != NULL)` loop of `enumerate`: the `QHidDeviceInfo`
filled from one native node.  `winOrMac` is the build condition
`defined(Q_OS_WIN32) || defined(Q_OS_MAC)`. -/
def enumerate_fill (winOrMac : Bool) (info : hid_device_info) : QHidDeviceInfo :=
  { path := info.path
    vendorId := info.vendor_id
    manufacturerString := info.manufacturer_string
    productId := info.product_id
    productString := info.product_string
    releaseNumber := info.release_number
    serialNumber := info.serial_number
    usagePage := if winOrMac then some info.usage_page else none
    usage := if winOrMac then some info.usage else none
    interfaceNumber := info.interface_number }

/-- The `while (info != NULL)` loop of `enumerate`: appends one item per node and
follows `next`. -/
def enumerate_loop (winOrMac : Bool) :
    List QHidDeviceInfo → List hid_device_info → List QHidDeviceInfo
  | mDeviceInfoList, [] => mDeviceInfoList
  | mDeviceInfoList, info :: next =>
    enumerate_loop winOrMac (mDeviceInfoList ++ [enumerate_fill winOrMac info]) next

/-- The method `enumerate`.  It reads and writes only the member
`mDeviceInfoList`, which is passed and returned explicitly: the result is
(return value, new `mDeviceInfoList`, native calls).  `info` is the list
`hid_enumerate` answers; `hid_free_enumeration` gets the loop variable, which is
`NULL` (the empty list) once the loop is over. -/
def enumerate (winOrMac : Bool) (mDeviceInfoList : List QHidDeviceInfo)
    (vendorId productId : Nat) (info : List hid_device_info) :
    List QHidDeviceInfo × List QHidDeviceInfo × List NativeCall :=
  let cleared := clear mDeviceInfoList
  let filled := enumerate_loop winOrMac cleared info
  (filled, filled, [NativeCall.hid_enumerate vendorId productId, NativeCall.hid_free_enumeration []])

end QHidApiPrivate

open QHidApiPrivate

/-! ## Table model (`qhiddeviceinfomodel.cpp`) -/

/-- The role `Qt::DisplayRole`. -/
def DisplayRole : Int := 0

/-- The enum `Qt::Orientation`. -/
inductive Orientation where
  | Horizontal
  | Vertical
  deriving DecidableEq, Repr

/-- The class `QHidDeviceInfoModel`: its only member is `m_data`. -/
structure QHidDeviceInfoModel where
  m_data : List QHidDeviceInfo
  deriving DecidableEq, Repr

namespace QHidDeviceInfoModel

/-- The constant `s_columnCount`. -/
def s_columnCount : Int := 6

/-- The constructor `QHidDeviceInfoModel(QList<QHidDeviceInfo> data, parent)`. -/
def construct (data : List QHidDeviceInfo) : QHidDeviceInfoModel := { m_data := data }

/-- The slot `setDataSet`. -/
def setDataSet (_m : QHidDeviceInfoModel) (data : List QHidDeviceInfo) : QHidDeviceInfoModel :=
  { m_data := data }

/-- The method `rowCount`. -/
def rowCount (m : QHidDeviceInfoModel) : Int := m.m_data.length

/-- The method `columnCount`. -/
def columnCount (_m : QHidDeviceInfoModel) : Int := s_columnCount

/-- The call `m_data.at(row)`: `none` when `row` is out of range (`QList::at`
asserts on it). -/
def dataAt (m : QHidDeviceInfoModel) (row : Int) : Option QHidDeviceInfo :=
  if 0 ≤ row then m.m_data.get? row.toNat else none

/-- The method `data(index, role)` with `row = index.row()`, `column =
index.column()`.  `none` stands for the failed range assertion of `QList::at`. -/
def data (m : QHidDeviceInfoModel) (row column : Int) (role : Int) : Option QVariant :=
  if role = DisplayRole then
    if column = 0 then (m.dataAt row).map (fun d => QVariant.int d.vendorId)
    else if column = 1 then (m.dataAt row).map (fun d => QVariant.int d.productId)
    else if column = 2 then (m.dataAt row).map (fun d => QVariant.string d.manufacturerString)
    else if column = 3 then (m.dataAt row).map (fun d => QVariant.string d.productString)
    else if column = 4 then (m.dataAt row).map (fun d => QVariant.string d.serialNumber)
    else if column = 5 then (m.dataAt row).map (fun d => QVariant.int d.releaseNumber)
    else some QVariant.invalid
  else some QVariant.invalid

/-- The method `headerData(section, orientation, role)`. -/
def headerData (_m : QHidDeviceInfoModel) (sect : Int) (orientation : Orientation)
    (role : Int) : QVariant :=
  if role = DisplayRole then
    if orientation = Orientation.Horizontal then
      if sect = 0 then QVariant.string "Vendor Id"
      else if sect = 1 then QVariant.string "Manufacturer"
      else if sect = 2 then QVariant.string "Product Id"
      else if sect = 3 then QVariant.string "Product"
      else if sect = 4 then QVariant.string "Serial Number"
      else if sect = 5 then QVariant.string "Release"
      else QVariant.string ""
    else QVariant.invalid
  else QVariant.invalid

end QHidDeviceInfoModel

/-! ## Sequences of operations -/

/-- A public operation that can touch the registry, with the answer of the
native layer to the native open it may issue. -/
inductive Op where
  | openVidPid (vendorId productId : Nat) (serialNumber : String) (device : HidDevice)
  | openPath (path : String) (device : HidDevice)
  | close (id : Nat)
  deriving DecidableEq, Repr

/-- The registry state after one operation. -/
def step (st : QHidApiPrivate) : Op → QHidApiPrivate
  | Op.openVidPid v p s d => (openVidPid st v p s d).2.1
  | Op.openPath path d => (openPath st path d).2.1
  | Op.close id => (close st id).1

/-- The handle an operation returns (`close` returns nothing). -/
def returned (st : QHidApiPrivate) : Op → Option Nat
  | Op.openVidPid v p s d => some (openVidPid st v p s d).1
  | Op.openPath path d => some (openPath st path d).1
  | Op.close _ => none

/-- The handle an operation allocates: `nextId` is the only writer of `mNextId`,
so an operation allocated a handle exactly when it moved the counter, and the
handle allocated is the one the open returns. -/
def allocated (st : QHidApiPrivate) (op : Op) : Option Nat :=
  if (step st op).mNextId = st.mNextId then none else returned st op

/-- The handles allocated by a sequence of operations, in order of allocation. -/
def allocations : QHidApiPrivate → List Op → List Nat
  | _, [] => []
  | st, op :: ops =>
    match allocated st op with
    | some h => h :: allocations (step st op) ops
    | none => allocations (step st op) ops

/-- The first entry the vendor table holds for a product id, among the product
maps of one vendor in table order. -/
def firstEntry (vmap : List (QMultiMap QVariant)) (productId : Nat) : Option QVariant :=
  (vmap.flatten.find? (fun e => decide (e.1 = productId))).map (fun e => e.2)

/-- The id `openProduct` resolves a vendor-table entry to: the id stored in an
entry registered without a serial number, the id the serial table currently
holds for the serial number stored in an entry registered with one (which need
not be the handle the entry was registered under). -/
def entryHandle (st : QHidApiPrivate) : QVariant → Nat
  | QVariant.uint id => id
  | QVariant.string sn => st.mSerDevices.value sn 0
  | _ => 0

/-- Every entry of the vendor table is an id that is a key of the id-to-device
table, or a serial number. -/
def VendorEntriesResolved (st : QHidApiPrivate) : Prop :=
  ∀ vm ∈ st.mVendorMap, ∀ pe ∈ vm.2,
    (∃ id, pe.2 = QVariant.uint id ∧ st.mIdDeviceMap.contains id = true) ∨
    (∃ sn, pe.2 = QVariant.string sn)

/-- States reachable from construction through the public operations that can
touch the registry (`open`, `open(path)`, `close`), whatever the native layer answers. -/
inductive Reachable : QHidApiPrivate → Prop where
  | construct : Reachable QHidApiPrivate.construct
  | openVidPid (st : QHidApiPrivate) (vendorId productId : Nat) (serialNumber : String)
      (device : HidDevice) :
      Reachable st → Reachable (openVidPid st vendorId productId serialNumber device).2.1
  | openPath (st : QHidApiPrivate) (path : String) (device : HidDevice) :
      Reachable st → Reachable (openPath st path device).2.1
  | close (st : QHidApiPrivate) (id : Nat) :
      Reachable st → Reachable (close st id).1

/-- Every handle stored in the path, serial and device-to-id tables is a key of
the id-to-device table, and every serial number stored in the vendor table is a
key of the serial table. -/
def HandlesRegistered (st : QHidApiPrivate) : Prop :=
  (∀ e ∈ st.mPathMap, st.mIdDeviceMap.contains e.2 = true) ∧
  (∀ e ∈ st.mSerDevices, st.mIdDeviceMap.contains e.2 = true) ∧
  (∀ e ∈ st.mDeviceIdMap, st.mIdDeviceMap.contains e.2 = true) ∧
  (∀ vm ∈ st.mVendorMap, ∀ pe ∈ vm.2, ∀ sn, pe.2 = QVariant.string sn →
    st.mSerDevices.contains sn = true)

/-- The 32-bit counter has not wrapped around: the next handle is not `0` and
handle `0` has not been allocated. -/
def CounterNotWrapped (st : QHidApiPrivate) : Prop :=
  st.mNextId ≠ 0 ∧ st.mIdDeviceMap.contains 0 = false

/-- The registry state after a sequence of operations. -/
def run (st : QHidApiPrivate) (ops : List Op) : QHidApiPrivate :=
  ops.foldl step st

/-- The entries the vendor table holds for `(vendorId, productId)`, in table order. -/
def entriesFor (st : QHidApiPrivate) (vendorId productId : Nat) : List (Nat × QVariant) :=
  (st.mVendorMap.values vendorId).flatten.filter (fun e => decide (e.1 = productId))

/-- The counter is a 32-bit value and, as long as it has not wrapped around, the
keys of the id-to-device table are exactly the integers from `1` up to, but not
including, `mNextId`. -/
def KeysBelowCounter (st : QHidApiPrivate) : Prop :=
  st.mNextId < 2 ^ 32 ∧
  (CounterNotWrapped st →
    ∀ k, st.mIdDeviceMap.contains k = true ↔ (1 ≤ k ∧ k < st.mNextId))

/-- No handle is mapped to the null device. -/
def DevicesNonNull (st : QHidApiPrivate) : Prop :=
  ∀ e ∈ st.mIdDeviceMap, e.2 ≠ NULL

/-! ## Container lemmas -/

namespace QMap

variable {K V : Type} [DecidableEq K]

theorem contains_insert_self (m : QMap K V) (k : K) (v : V) :
    (QMap.insert m k v).contains k = true := by
  simp [QMap.insert, QMap.contains]

theorem value_insert_self (m : QMap K V) (k : K) (v dflt : V) :
    (QMap.insert m k v).value k dflt = v := by
  simp [QMap.insert, QMap.value]

end QMap

namespace QMultiMap

variable {V : Type}

theorem values_insert_self (m : QMultiMap V) (k : Nat) (v : V) :
    (QMultiMap.insert m k v).values k = v :: m.values k := by
  induction m with
  | nil => simp [QMultiMap.insert, QMultiMap.values]
  | cons e rest ih =>
    obtain ⟨k', w⟩ := e
    by_cases hlt : k' < k
    · have hne : ¬ k' = k := Nat.ne_of_lt hlt
      have ih' := ih
      simp only [QMultiMap.values] at ih'
      simp [QMultiMap.insert, QMultiMap.values, hlt, hne, ih']
    · simp [QMultiMap.insert, QMultiMap.values, hlt]

end QMultiMap

namespace QMap

variable {K V : Type} [DecidableEq K]

theorem contains_iff (m : QMap K V) (k : K) :
    m.contains k = true ↔ ∃ e ∈ m, e.1 = k := by
  simp [QMap.contains]

theorem mem_insert (m : QMap K V) (k : K) (v : V) (e : K × V)
    (h : e ∈ QMap.insert m k v) : e = (k, v) ∨ e ∈ m := by
  simp only [QMap.insert, List.mem_cons, List.mem_filter] at h
  rcases h with h | h
  · exact Or.inl h
  · exact Or.inr h.1

theorem contains_insert_of_contains (m : QMap K V) (k x : K) (v : V)
    (h : m.contains x = true) : (QMap.insert m k v).contains x = true := by
  by_cases hk : k = x
  · subst hk
    exact contains_insert_self m k v
  · rw [contains_iff] at h ⊢
    obtain ⟨e, he, hx⟩ := h
    refine ⟨e, ?_, hx⟩
    simp only [QMap.insert, List.mem_cons, List.mem_filter]
    right
    refine ⟨he, ?_⟩
    simp only [decide_eq_true_eq]
    rw [hx]
    exact fun hxk => hk hxk.symm

theorem value_of_contains (m : QMap K V) (k : K) (dflt : V) (h : m.contains k = true) :
    ∃ e ∈ m, e.1 = k ∧ m.value k dflt = e.2 := by
  induction m with
  | nil => simp [QMap.contains] at h
  | cons a rest ih =>
    by_cases ha : a.1 = k
    · exact ⟨a, List.mem_cons_self _ _, ha, by simp [QMap.value, ha]⟩
    · have hrest : QMap.contains rest k = true := by
        simpa [QMap.contains, ha] using h
      obtain ⟨e, he, hk, hv⟩ := ih hrest
      refine ⟨e, List.mem_cons_of_mem _ he, hk, ?_⟩
      simp only [QMap.value] at hv ⊢
      simpa [List.find?, ha] using hv

end QMap

namespace QMultiMap

variable {V : Type}

theorem mem_multiInsert (m : QMultiMap V) (k : Nat) (v : V) (e : Nat × V)
    (h : e ∈ QMultiMap.insert m k v) : e = (k, v) ∨ e ∈ m := by
  induction m with
  | nil => simpa [QMultiMap.insert] using h
  | cons a rest ih =>
    obtain ⟨k', w⟩ := a
    by_cases hlt : k' < k
    · simp only [QMultiMap.insert, hlt, if_true, List.mem_cons] at h
      rcases h with h | h
      · exact Or.inr (by simp [h])
      · rcases ih h with h | h
        · exact Or.inl h
        · exact Or.inr (List.mem_cons_of_mem _ h)
    · simp only [QMultiMap.insert, hlt, if_false, List.mem_cons] at h
      rcases h with h | h | h
      · exact Or.inl h
      · exact Or.inr (by simp [h])
      · exact Or.inr (List.mem_cons_of_mem _ h)

theorem mem_of_mem_values (m : QMultiMap V) (k : Nat) (x : V) (h : x ∈ m.values k) :
    (k, x) ∈ m := by
  simp only [QMultiMap.values, List.mem_map, List.mem_filter, decide_eq_true_eq] at h
  obtain ⟨e, ⟨he, hk⟩, hx⟩ := h
  obtain ⟨a, b⟩ := e
  simp only at hk hx
  subst hk
  subst hx
  exact he

end QMultiMap

/-! ## Reopening an identity -/

theorem openNewProduct_fail (st : QHidApiPrivate) (v p : Nat) (s : String) :
    (openNewProduct st v p s NULL).1 = 0 ∧ (openNewProduct st v p s NULL).2.1 = st := by
  unfold openNewProduct
  split <;> simp

theorem openNewProduct_reopen (st : QHidApiPrivate) (v p : Nat) (s : String)
    (d d' : HidDevice) (hd : d ≠ NULL) :
    openVidPid (openNewProduct st v p s d).2.1 v p s d'
      = ((openNewProduct st v p s d).1, (openNewProduct st v p s d).2.1, []) := by
  unfold openNewProduct
  by_cases hs : s.isEmpty = true
  · simp only [hs, hd, if_true, ne_eq, not_false_eq_true, nextId]
    simp [openVidPid, openProduct, QMultiMap.values_insert_self, openProduct_vmapLoop,
      openProduct_pmapLoop, QMultiMap.insert, QMap.contains_insert_self]
  · simp only [hs, hd, if_true, ne_eq, not_false_eq_true, nextId]
    simp [openVidPid, openProduct, QMultiMap.values_insert_self, openProduct_vmapLoop,
      openProduct_pmapLoop, QMultiMap.insert, QMap.value_insert_self]

theorem openNewProduct_again (st : QHidApiPrivate) (v p : Nat) (s : String)
    (d d' : HidDevice) (h : (openNewProduct st v p s d).1 ≠ 0) :
    openVidPid (openNewProduct st v p s d).2.1 v p s d'
      = ((openNewProduct st v p s d).1, (openNewProduct st v p s d).2.1, []) := by
  by_cases hd : d = NULL
  · subst hd
    exact absurd (openNewProduct_fail st v p s).1 h
  · exact openNewProduct_reopen st v p s d d' hd

/-- C1. If `open(vendorId, productId, serialNumber)` returns a non-zero handle,
an immediately following `open` of the same triple returns the same handle,
issues no native call and leaves the registry state as it was (in every state,
whatever the native layer would have answered). -/
theorem open_same_identity_twice (st : QHidApiPrivate) (v p : Nat) (s : String)
    (d d' : HidDevice) (h : (openVidPid st v p s d).1 ≠ 0) :
    openVidPid (openVidPid st v p s d).2.1 v p s d'
      = ((openVidPid st v p s d).1, (openVidPid st v p s d).2.1, []) := by
  unfold openVidPid at h ⊢
  by_cases he : (st.mVendorMap.values v).isEmpty = true
  · simp only [he, if_true] at h ⊢
    have := openNewProduct_again st v p s d d' h
    unfold openVidPid at this
    exact this
  · simp only [he] at h ⊢
    simp only [Bool.false_eq_true, if_false] at h ⊢
    unfold openProduct at h ⊢
    cases hl : openProduct_vmapLoop st p (st.mVendorMap.values v) with
    | some id => simp [hl, he, openProduct]
    | none =>
      simp only [hl] at h ⊢
      have := openNewProduct_again st v p s d d' h
      unfold openVidPid openProduct at this
      exact this

theorem open_same_identity_twice_witness :
    (openVidPid QHidApiPrivate.construct 1 2 "A" 7).1 ≠ 0 ∧
    openVidPid (openVidPid QHidApiPrivate.construct 1 2 "A" 7).2.1 1 2 "A" 9
      = ((openVidPid QHidApiPrivate.construct 1 2 "A" 7).1,
         (openVidPid QHidApiPrivate.construct 1 2 "A" 7).2.1, []) :=
  ⟨by decide, open_same_identity_twice QHidApiPrivate.construct 1 2 "A" 7 9 (by decide)⟩

/-! ## Reopening a path -/

/-- C2. Failing input: in the reachable state after `open(1, 2, "")` was answered
with device `7` (handle `1`), `open("/dev/hidraw0")` answered with device `7`
takes the already-registered branch and returns handle `1` without recording the
path; the immediately following `open("/dev/hidraw0")`, answered with `NULL`,
returns `0`, and answered with a new device `9` it returns the new handle `2`. -/
theorem open_same_path_twice_differs :
    Reachable (openVidPid QHidApiPrivate.construct 1 2 "" 7).2.1 ∧
    openPath (openVidPid QHidApiPrivate.construct 1 2 "" 7).2.1 "/dev/hidraw0" 7
      = (1, (openVidPid QHidApiPrivate.construct 1 2 "" 7).2.1,
          [NativeCall.hid_open_path "/dev/hidraw0"]) ∧
    (openPath (openPath (openVidPid QHidApiPrivate.construct 1 2 "" 7).2.1
      "/dev/hidraw0" 7).2.1 "/dev/hidraw0" NULL).1 = 0 ∧
    (openPath (openPath (openVidPid QHidApiPrivate.construct 1 2 "" 7).2.1
      "/dev/hidraw0" 7).2.1 "/dev/hidraw0" 9).1 = 2 := by
  refine ⟨Reachable.openVidPid _ 1 2 "" 7 Reachable.construct, ?_, ?_, ?_⟩ <;> decide

/-! ## Closing -/

/-- The method `close` writes no member of the registry. -/
theorem close_state (st : QHidApiPrivate) (id : Nat) : (close st id).1 = st := by
  simp only [close]
  split <;> rfl

/-- C3. Failing input: in the reachable state after `open(1, 2, "")` was answered
with device `7` (handle `1`), `close(1)` issues `hid_close(7)` and leaves the
registry as it was: `findId(1)` still yields device `7`, and `read(1)`,
`write(1, data, 0)` and `error(1)` call the native layer with the closed device. -/
theorem close_keeps_handle_entry :
    Reachable (openVidPid QHidApiPrivate.construct 1 2 "" 7).2.1 ∧
    findId (openVidPid QHidApiPrivate.construct 1 2 "" 7).2.1 1 = 7 ∧
    close (openVidPid QHidApiPrivate.construct 1 2 "" 7).2.1 1
      = ((openVidPid QHidApiPrivate.construct 1 2 "" 7).2.1, [NativeCall.hid_close 7]) ∧
    findId (close (openVidPid QHidApiPrivate.construct 1 2 "" 7).2.1 1).1 1 = 7 ∧
    read (close (openVidPid QHidApiPrivate.construct 1 2 "" 7).2.1 1).1 1 (2, [10, 20, 30])
      = ([10, 20], [NativeCall.hid_read 7 65]) ∧
    writeReport (close (openVidPid QHidApiPrivate.construct 1 2 "" 7).2.1 1).1 1 [5, 6] 0 3
      = (3, [NativeCall.hid_write 7 [0, 5, 6] 3]) ∧
    error (close (openVidPid QHidApiPrivate.construct 1 2 "" 7).2.1 1).1 1 (some "io")
      = ("io", [NativeCall.hid_error 7]) := by
  refine ⟨Reachable.openVidPid _ 1 2 "" 7 Reachable.construct, ?_, ?_, ?_, ?_, ?_, ?_⟩ <;> decide

/-- C4. Failing input: `open(1, 2, "A")` answered with device `7` returns handle
`1`; `open(3, 4, "A")` answered with device `8` returns handle `2` and overwrites
the serial table entry for `"A"`; with no close in between, the next
`open(1, 2, "A")` returns `2`, not `1`. -/
theorem open_handle_not_stable :
    (openVidPid QHidApiPrivate.construct 1 2 "A" 7).1 = 1 ∧
    (openVidPid (openVidPid QHidApiPrivate.construct 1 2 "A" 7).2.1 3 4 "A" 8).1 = 2 ∧
    openVidPid (openVidPid (openVidPid QHidApiPrivate.construct 1 2 "A" 7).2.1 3 4 "A" 8).2.1
        1 2 "A" 7
      = (2, (openVidPid (openVidPid QHidApiPrivate.construct 1 2 "A" 7).2.1 3 4 "A" 8).2.1, []) := by
  refine ⟨?_, ?_, ?_⟩ <;> decide

/-- C5. Failing input: `open(1, 2, "A")` answered with device `7` allocates handle
`1`; after `close(1)`, `open(1, 2, "B")` (another serial number, so another
identity) returns handle `1` without a native call, and `open("/dev/hidraw0")`
answered with the address `7` again returns handle `1` as well. -/
theorem closed_handle_returned_for_other_identity :
    (openVidPid QHidApiPrivate.construct 1 2 "A" 7).1 = 1 ∧
    openVidPid (close (openVidPid QHidApiPrivate.construct 1 2 "A" 7).2.1 1).1 1 2 "B" 8
      = (1, (openVidPid QHidApiPrivate.construct 1 2 "A" 7).2.1, []) ∧
    (openPath (close (openVidPid QHidApiPrivate.construct 1 2 "A" 7).2.1 1).1
      "/dev/hidraw0" 7).1 = 1 := by
  refine ⟨?_, ?_, ?_⟩ <;> decide

/-- C6. For every registry state and every handle that is no key of the
id-to-device table, `close` issues no native call and returns the state unchanged
(every table and the next-id counter). -/
theorem close_unknown_handle (st : QHidApiPrivate) (id : Nat)
    (h : st.mIdDeviceMap.contains id = false) : close st id = (st, []) := by
  simp [close, findId, h]

theorem close_unknown_handle_witness :
    (QHidApiPrivate.construct).mIdDeviceMap.contains 5 = false ∧
    close QHidApiPrivate.construct 5 = (QHidApiPrivate.construct, []) :=
  ⟨by decide, close_unknown_handle QHidApiPrivate.construct 5 (by decide)⟩

/-! ## Failed opens -/

theorem handlesRegistered_construct : HandlesRegistered QHidApiPrivate.construct := by
  simp [HandlesRegistered, QHidApiPrivate.construct]

theorem handlesRegistered_openPath (st : QHidApiPrivate) (path : String) (d : HidDevice)
    (h : HandlesRegistered st) : HandlesRegistered (openPath st path d).2.1 := by
  unfold openPath
  split
  · exact h
  · split
    · exact h
    · split
      · exact h
      · obtain ⟨h1, h2, h3, h4⟩ := h
        refine ⟨?_, ?_, ?_, ?_⟩
        · intro e he
          rcases QMap.mem_insert _ _ _ _ he with rfl | he
          · exact QMap.contains_insert_self _ _ _
          · exact QMap.contains_insert_of_contains _ _ _ _ (h1 e he)
        · intro e he
          exact QMap.contains_insert_of_contains _ _ _ _ (h2 e he)
        · intro e he
          rcases QMap.mem_insert _ _ _ _ he with rfl | he
          · exact QMap.contains_insert_self _ _ _
          · exact QMap.contains_insert_of_contains _ _ _ _ (h3 e he)
        · exact h4

theorem handlesRegistered_openNewProduct (st : QHidApiPrivate) (v p : Nat) (s : String)
    (d : HidDevice) (h : HandlesRegistered st) :
    HandlesRegistered (openNewProduct st v p s d).2.1 := by
  obtain ⟨h1, h2, h3, h4⟩ := h
  unfold openNewProduct
  split
  · split
    · refine ⟨?_, ?_, ?_, ?_⟩
      · intro e he
        exact QMap.contains_insert_of_contains _ _ _ _ (h1 e he)
      · intro e he
        exact QMap.contains_insert_of_contains _ _ _ _ (h2 e he)
      · intro e he
        rcases QMap.mem_insert _ _ _ _ he with rfl | he
        · exact QMap.contains_insert_self _ _ _
        · exact QMap.contains_insert_of_contains _ _ _ _ (h3 e he)
      · intro vm hvm pe hpe sn hsn
        rcases QMultiMap.mem_multiInsert _ _ _ _ hvm with rfl | hvm
        · simp [QMultiMap.insert] at hpe
          subst hpe
          simp at hsn
        · exact h4 vm hvm pe hpe sn hsn
    · exact ⟨h1, h2, h3, h4⟩
  · split
    · refine ⟨?_, ?_, ?_, ?_⟩
      · intro e he
        exact QMap.contains_insert_of_contains _ _ _ _ (h1 e he)
      · intro e he
        rcases QMap.mem_insert _ _ _ _ he with rfl | he
        · exact QMap.contains_insert_self _ _ _
        · exact QMap.contains_insert_of_contains _ _ _ _ (h2 e he)
      · intro e he
        rcases QMap.mem_insert _ _ _ _ he with rfl | he
        · exact QMap.contains_insert_self _ _ _
        · exact QMap.contains_insert_of_contains _ _ _ _ (h3 e he)
      · intro vm hvm pe hpe sn hsn
        rcases QMultiMap.mem_multiInsert _ _ _ _ hvm with rfl | hvm
        · simp [QMultiMap.insert] at hpe
          subst hpe
          simp at hsn
          subst hsn
          exact QMap.contains_insert_self _ _ _
        · exact QMap.contains_insert_of_contains _ _ _ _ (h4 vm hvm pe hpe sn hsn)
    · exact ⟨h1, h2, h3, h4⟩

theorem handlesRegistered_openVidPid (st : QHidApiPrivate) (v p : Nat) (s : String)
    (d : HidDevice) (h : HandlesRegistered st) :
    HandlesRegistered (openVidPid st v p s d).2.1 := by
  unfold openVidPid
  split
  · exact handlesRegistered_openNewProduct st v p s d h
  · unfold openProduct
    split
    · exact h
    · exact handlesRegistered_openNewProduct st v p s d h

theorem handlesRegistered_of_reachable (st : QHidApiPrivate) (h : Reachable st) :
    HandlesRegistered st := by
  induction h with
  | construct => exact handlesRegistered_construct
  | openVidPid st v p s d _ ih => exact handlesRegistered_openVidPid st v p s d ih
  | openPath st path d _ ih => exact handlesRegistered_openPath st path d ih
  | close st id _ ih => rw [close_state]; exact ih

theorem registered_ne_zero (st : QHidApiPrivate) (hw : CounterNotWrapped st) (id : Nat)
    (h : st.mIdDeviceMap.contains id = true) : id ≠ 0 := by
  rintro rfl
  rw [hw.2] at h
  exact Bool.false_ne_true h

theorem pmapLoop_ne_zero (st : QHidApiPrivate) (hr : HandlesRegistered st)
    (hw : CounterNotWrapped st) (p : Nat) (pmap : List (Nat × QVariant))
    (hs : ∀ pe ∈ pmap, ∀ sn, pe.2 = QVariant.string sn → st.mSerDevices.contains sn = true)
    (id : Nat) (h : openProduct_pmapLoop st p pmap = some id) : id ≠ 0 := by
  induction pmap with
  | nil => simp [openProduct_pmapLoop] at h
  | cons a rest ih =>
    obtain ⟨q, var⟩ := a
    have hs' : ∀ pe ∈ rest, ∀ sn, pe.2 = QVariant.string sn →
        st.mSerDevices.contains sn = true :=
      fun pe hpe sn hsn => hs pe (List.mem_cons_of_mem _ hpe) sn hsn
    by_cases hq : q = p
    · cases var with
      | uint n =>
        by_cases hc : st.mIdDeviceMap.contains n = true
        · simp [openProduct_pmapLoop, hq, hc] at h
          subst h
          exact registered_ne_zero st hw n hc
        · simp [openProduct_pmapLoop, hq, hc] at h
          exact ih hs' h
      | string sn =>
        simp [openProduct_pmapLoop, hq] at h
        have hc := hs (q, QVariant.string sn) (List.mem_cons_self _ _) sn rfl
        obtain ⟨e, he, _, hv⟩ := QMap.value_of_contains st.mSerDevices sn 0 hc
        rw [← h, hv]
        exact registered_ne_zero st hw e.2 (hr.2.1 e he)
      | invalid =>
        simp [openProduct_pmapLoop, hq] at h
        exact ih hs' h
      | int n =>
        simp [openProduct_pmapLoop, hq] at h
        exact ih hs' h
    · simp [openProduct_pmapLoop, hq] at h
      exact ih hs' h

theorem vmapLoop_ne_zero (st : QHidApiPrivate) (hr : HandlesRegistered st)
    (hw : CounterNotWrapped st) (p : Nat) (vmap : List (QMultiMap QVariant))
    (hs : ∀ pmap ∈ vmap, ∀ pe ∈ pmap, ∀ sn, pe.2 = QVariant.string sn →
      st.mSerDevices.contains sn = true)
    (id : Nat) (h : openProduct_vmapLoop st p vmap = some id) : id ≠ 0 := by
  induction vmap with
  | nil => simp [openProduct_vmapLoop] at h
  | cons pmap rest ih =>
    cases hp : openProduct_pmapLoop st p pmap with
    | some j =>
      simp [openProduct_vmapLoop, hp] at h
      subst h
      exact pmapLoop_ne_zero st hr hw p pmap (hs pmap (List.mem_cons_self _ _)) j hp
    | none =>
      simp [openProduct_vmapLoop, hp] at h
      exact ih (fun pm hpm => hs pm (List.mem_cons_of_mem _ hpm)) h

theorem openNewProduct_zero (st : QHidApiPrivate) (hw : CounterNotWrapped st) (v p : Nat)
    (s : String) (d : HidDevice) (h : (openNewProduct st v p s d).1 = 0) : d = NULL := by
  by_contra hd
  have hn := hw.1
  unfold openNewProduct at h
  split at h <;> simp [hd, nextId, hn] at h

theorem openNewProduct_calls (st : QHidApiPrivate) (v p : Nat) (s : String) (d : HidDevice) :
    (openNewProduct st v p s d).2.2 ≠ [] := by
  unfold openNewProduct
  split <;> split <;> simp [nextId]

theorem openVidPid_zero (st : QHidApiPrivate) (hr : Reachable st) (hw : CounterNotWrapped st)
    (v p : Nat) (s : String) (d : HidDevice) (h : (openVidPid st v p s d).1 = 0) :
    d = NULL ∧ (openVidPid st v p s d).2.2 ≠ [] := by
  have hreg := handlesRegistered_of_reachable st hr
  unfold openVidPid at h ⊢
  by_cases he : (st.mVendorMap.values v).isEmpty = true
  · simp only [he, if_true] at h ⊢
    exact ⟨openNewProduct_zero st hw v p s d h, openNewProduct_calls st v p s d⟩
  · simp only [he] at h ⊢
    simp only [Bool.false_eq_true, if_false] at h ⊢
    unfold openProduct at h ⊢
    cases hl : openProduct_vmapLoop st p (st.mVendorMap.values v) with
    | some id =>
      simp only [hl] at h
      have hne := vmapLoop_ne_zero st hreg hw p (st.mVendorMap.values v)
        (fun pmap hpm pe hpe sn hsn =>
          hreg.2.2.2 (v, pmap) (QMultiMap.mem_of_mem_values _ _ _ hpm) pe hpe sn hsn) id hl
      exact absurd h hne
    | none =>
      simp only [hl] at h ⊢
      exact ⟨openNewProduct_zero st hw v p s d h, openNewProduct_calls st v p s d⟩

theorem openPath_zero (st : QHidApiPrivate) (hr : Reachable st) (hw : CounterNotWrapped st)
    (path : String) (d : HidDevice) (h : (openPath st path d).1 = 0) :
    d = NULL ∧ (openPath st path d).2.2 ≠ [] := by
  have hreg := handlesRegistered_of_reachable st hr
  unfold openPath at h ⊢
  by_cases hc : st.mPathMap.contains path = true
  · simp only [hc, if_true] at h
    obtain ⟨e, he, _, hv⟩ := QMap.value_of_contains st.mPathMap path 0 hc
    rw [hv] at h
    exact absurd h (registered_ne_zero st hw e.2 (hreg.1 e he))
  · simp only [hc] at h ⊢
    by_cases hd : d = NULL
    · simp [hd]
    · by_cases hc2 : st.mDeviceIdMap.contains d = true
      · simp only [hd, hc2, if_true, if_false] at h
        obtain ⟨e, he, _, hv⟩ := QMap.value_of_contains st.mDeviceIdMap d 0 hc2
        simp only [Bool.false_eq_true, if_false] at h
        rw [hv] at h
        exact absurd h (registered_ne_zero st hw e.2 (hreg.2.2.1 e he))
      · simp [hd, hc2, nextId, hw.1] at h

theorem openPath_fail (st : QHidApiPrivate) (path : String) :
    (openPath st path NULL).2.1 = st ∧
    ((openPath st path NULL).2.2 ≠ [] → (openPath st path NULL).1 = 0) := by
  unfold openPath
  by_cases hc : st.mPathMap.contains path = true <;> simp [hc]

theorem openVidPid_fail (st : QHidApiPrivate) (v p : Nat) (s : String) :
    (openVidPid st v p s NULL).2.1 = st ∧
    ((openVidPid st v p s NULL).2.2 ≠ [] → (openVidPid st v p s NULL).1 = 0) := by
  unfold openVidPid
  by_cases he : (st.mVendorMap.values v).isEmpty = true
  · simp only [he, if_true]
    exact ⟨(openNewProduct_fail st v p s).2, fun _ => (openNewProduct_fail st v p s).1⟩
  · simp only [he]
    simp only [Bool.false_eq_true, if_false]
    unfold openProduct
    cases hl : openProduct_vmapLoop st p (st.mVendorMap.values v) with
    | some id => simp
    | none => exact ⟨(openNewProduct_fail st v p s).2, fun _ => (openNewProduct_fail st v p s).1⟩

theorem exists_fresh_path (st : QHidApiPrivate) :
    ∃ path : String, st.mPathMap.contains path = false := by
  obtain ⟨path, hp⟩ := Infinite.exists_not_mem_finset (st.mPathMap.map Prod.fst).toFinset
  refine ⟨path, ?_⟩
  rw [Bool.eq_false_iff]
  intro hc
  rw [QMap.contains_iff] at hc
  obtain ⟨e, he, hk⟩ := hc
  apply hp
  simp only [List.mem_toFinset, List.mem_map]
  exact ⟨e, he, hk⟩

theorem exists_fresh_device (st : QHidApiPrivate) :
    ∃ d : HidDevice, d ≠ NULL ∧ st.mDeviceIdMap.contains d = false := by
  obtain ⟨d, hd⟩ :=
    Infinite.exists_not_mem_finset (insert NULL (st.mDeviceIdMap.map Prod.fst).toFinset)
  simp only [Finset.mem_insert, List.mem_toFinset, List.mem_map, not_or] at hd
  refine ⟨d, hd.1, ?_⟩
  rw [Bool.eq_false_iff]
  intro hc
  rw [QMap.contains_iff] at hc
  obtain ⟨e, he, hk⟩ := hc
  exact hd.2 ⟨e, he, hk⟩

theorem openPath_fresh (st : QHidApiPrivate) (path : String) (d : HidDevice)
    (hp : st.mPathMap.contains path = false) (hd : d ≠ NULL)
    (hc : st.mDeviceIdMap.contains d = false) :
    (openPath st path d).1 = st.mNextId ∧
    (openPath st path d).2.1.mNextId = (st.mNextId + 1) % 2 ^ 32 := by
  simp [openPath, hp, hd, hc, nextId]

theorem reachable_counter (n : Nat) :
    ∃ st : QHidApiPrivate, Reachable st ∧ st.mNextId = (1 + n) % 2 ^ 32 := by
  induction n with
  | zero => exact ⟨QHidApiPrivate.construct, Reachable.construct, by decide⟩
  | succ n ih =>
    obtain ⟨st, hr, hn⟩ := ih
    obtain ⟨path, hp⟩ := exists_fresh_path st
    obtain ⟨d, hd, hc⟩ := exists_fresh_device st
    refine ⟨(openPath st path d).2.1, Reachable.openPath st path d hr, ?_⟩
    rw [(openPath_fresh st path d hp hd hc).2, hn]
    omega

/-- C7, as stated, fails: after `2^32 - 1` successful opens of fresh paths the
counter `mNextId` has wrapped to `0`, and the next `open(path)` whose native open
succeeds returns `0`.  So it is not the case that in every reachable state
`open(path)` returns `0` only when the native open failed. -/
theorem open_zero_without_native_failure :
    ¬ ∀ st : QHidApiPrivate, Reachable st → ∀ (path : String) (d : HidDevice),
        (openPath st path d).1 = 0 → d = NULL := by
  intro H
  obtain ⟨st, hr, hn⟩ := reachable_counter (2 ^ 32 - 1)
  obtain ⟨path, hp⟩ := exists_fresh_path st
  obtain ⟨d, hd, hc⟩ := exists_fresh_device st
  have h0 : (openPath st path d).1 = 0 := by
    rw [(openPath_fresh st path d hp hd hc).1, hn]
    decide
  exact hd (H st hr path d h0)

/-- C7 (amended). For both opens, whenever the native open is attempted and
answers `NULL`, the operation returns `0` and the registry state (every table and
the counter) is unchanged.  Conversely, in every reachable state in which the
32-bit counter has not wrapped around, an open returns `0` only when the native
open was attempted and answered `NULL`. -/
theorem failed_open_returns_zero (st : QHidApiPrivate) (v p : Nat) (s path : String)
    (d : HidDevice) :
    ((openVidPid st v p s NULL).2.2 ≠ [] →
      (openVidPid st v p s NULL).1 = 0 ∧ (openVidPid st v p s NULL).2.1 = st) ∧
    ((openPath st path NULL).2.2 ≠ [] →
      (openPath st path NULL).1 = 0 ∧ (openPath st path NULL).2.1 = st) ∧
    (Reachable st → CounterNotWrapped st →
      ((openVidPid st v p s d).1 = 0 → d = NULL ∧ (openVidPid st v p s d).2.2 ≠ []) ∧
      ((openPath st path d).1 = 0 → d = NULL ∧ (openPath st path d).2.2 ≠ [])) :=
  ⟨fun h => ⟨(openVidPid_fail st v p s).2 h, (openVidPid_fail st v p s).1⟩,
   fun h => ⟨(openPath_fail st path).2 h, (openPath_fail st path).1⟩,
   fun hr hw => ⟨openVidPid_zero st hr hw v p s d, openPath_zero st hr hw path d⟩⟩

theorem failed_open_returns_zero_witness :
    ((openVidPid QHidApiPrivate.construct 1 2 "" NULL).1 = 0 ∧
      (openVidPid QHidApiPrivate.construct 1 2 "" NULL).2.1 = QHidApiPrivate.construct) ∧
    ((openPath QHidApiPrivate.construct "/dev/hidraw0" NULL).1 = 0 ∧
      (openPath QHidApiPrivate.construct "/dev/hidraw0" NULL).2.1 = QHidApiPrivate.construct) ∧
    (NULL = NULL ∧ (openVidPid QHidApiPrivate.construct 1 2 "" NULL).2.2 ≠ []) ∧
    (NULL = NULL ∧ (openPath QHidApiPrivate.construct "/dev/hidraw0" NULL).2.2 ≠ []) :=
  ⟨(failed_open_returns_zero QHidApiPrivate.construct 1 2 "" "/dev/hidraw0" NULL).1 (by decide),
   (failed_open_returns_zero QHidApiPrivate.construct 1 2 "" "/dev/hidraw0" NULL).2.1 (by decide),
   ((failed_open_returns_zero QHidApiPrivate.construct 1 2 "" "/dev/hidraw0" NULL).2.2
      Reachable.construct ⟨by decide, by decide⟩).1 (by decide),
   ((failed_open_returns_zero QHidApiPrivate.construct 1 2 "" "/dev/hidraw0" NULL).2.2
      Reachable.construct ⟨by decide, by decide⟩).2 (by decide)⟩

/-! ## Pass-through operations -/

/-- C8. When `findId` does not resolve the handle, every read and `featureReport`
returns the empty byte sequence, every write and `sendFeatureReport` returns `-1`,
`error` returns the empty string, and none of them issues a native call, whatever
the native layer would have answered. -/
theorem unresolved_handle_fails (st : QHidApiPrivate) (id : Nat) (timeout : Int)
    (reportId : Nat) (data : QByteArray) (native : Int × QByteArray) (rep : Int)
    (errorString : Option String) (h : findId st id = NULL) :
    read st id native = ([], []) ∧
    readTimeout st id timeout native = ([], []) ∧
    featureReport st id reportId native = ([], []) ∧
    write st id data rep = (-1, []) ∧
    writeReport st id data reportId rep = (-1, []) ∧
    sendFeatureReport st id reportId data rep = (-1, []) ∧
    error st id errorString = ("", []) := by
  refine ⟨?_, ?_, ?_, ?_, ?_, ?_, ?_⟩
  · simp [QHidApiPrivate.read, h]
  · simp [readTimeout, h]
  · simp [featureReport, h]
  · simp [write, h]
  · simp [writeReport, h]
  · simp [sendFeatureReport, h]
  · simp [error, h]

theorem unresolved_handle_fails_witness :
    findId QHidApiPrivate.construct 3 = NULL ∧
    (read QHidApiPrivate.construct 3 (2, [1, 2]) = ([], []) ∧
     readTimeout QHidApiPrivate.construct 3 100 (2, [1, 2]) = ([], []) ∧
     featureReport QHidApiPrivate.construct 3 1 (2, [1, 2]) = ([], []) ∧
     write QHidApiPrivate.construct 3 [0, 9] 2 = (-1, []) ∧
     writeReport QHidApiPrivate.construct 3 [0, 9] 1 2 = (-1, []) ∧
     sendFeatureReport QHidApiPrivate.construct 3 1 [0, 9] 2 = (-1, []) ∧
     error QHidApiPrivate.construct 3 (some "io") = ("", [])) :=
  ⟨by decide,
   unresolved_handle_fails QHidApiPrivate.construct 3 100 1 [0, 9] (2, [1, 2]) 2 (some "io")
     (by decide)⟩

/-- C9. For every handle and report id, `write(id, data, reportId)` and
`sendFeatureReport(id, reportId, data)` return `-1` with no native call when
`data` has 65 or more bytes; with exactly 64 bytes the length check lets the
call through: for a handle that resolves, the native call is issued with the
65-byte report and its return code is the result. -/
theorem oversized_report_rejected (st : QHidApiPrivate) (id reportId : Nat)
    (big exact : QByteArray) (rep : Int) :
    (65 ≤ big.length →
      writeReport st id big reportId rep = (-1, []) ∧
      sendFeatureReport st id reportId big rep = (-1, [])) ∧
    (exact.length = 64 → findId st id ≠ NULL →
      writeReport st id exact reportId rep
        = (rep, [NativeCall.hid_write (findId st id) (reportId :: exact) 65]) ∧
      sendFeatureReport st id reportId exact rep
        = (rep, [NativeCall.hid_send_feature_report (findId st id) (reportId :: exact) 65])) := by
  constructor
  · intro hbig
    have h64 : big.length > 64 := by omega
    simp [writeReport, sendFeatureReport, h64]
  · intro hlen hdev
    simp [writeReport, sendFeatureReport, hlen, hdev]

theorem oversized_report_rejected_witness :
    (65 ≤ (List.replicate 65 0 : QByteArray).length ∧
      writeReport (openVidPid QHidApiPrivate.construct 1 2 "" 7).2.1 1 (List.replicate 65 0) 3 5
        = (-1, []) ∧
      sendFeatureReport (openVidPid QHidApiPrivate.construct 1 2 "" 7).2.1 1 3
        (List.replicate 65 0) 5 = (-1, [])) ∧
    ((List.replicate 64 0 : QByteArray).length = 64 ∧
      findId (openVidPid QHidApiPrivate.construct 1 2 "" 7).2.1 1 ≠ NULL ∧
      writeReport (openVidPid QHidApiPrivate.construct 1 2 "" 7).2.1 1 (List.replicate 64 0) 3 5
        = (5, [NativeCall.hid_write (findId (openVidPid QHidApiPrivate.construct 1 2 "" 7).2.1 1)
                (3 :: List.replicate 64 0) 65]) ∧
      sendFeatureReport (openVidPid QHidApiPrivate.construct 1 2 "" 7).2.1 1 3
        (List.replicate 64 0) 5
        = (5, [NativeCall.hid_send_feature_report
                (findId (openVidPid QHidApiPrivate.construct 1 2 "" 7).2.1 1)
                (3 :: List.replicate 64 0) 65])) :=
  ⟨⟨by decide,
    (oversized_report_rejected (openVidPid QHidApiPrivate.construct 1 2 "" 7).2.1 1 3
      (List.replicate 65 0) (List.replicate 64 0) 5).1 (by decide)⟩,
   ⟨by decide, by decide,
    (oversized_report_rejected (openVidPid QHidApiPrivate.construct 1 2 "" 7).2.1 1 3
      (List.replicate 65 0) (List.replicate 64 0) 5).2 (by decide) (by decide)⟩⟩

/-- C10. For a handle that resolves and a 65-byte native buffer, `read(id)` and
`read(id, timeout)` return the empty byte sequence when the native return code
`rep` is `<= 0`; when `0 < rep` (and the native layer respected the length 65 it
was given) they return exactly the first `rep` bytes of the buffer, of length
`rep <= 65`.  The native call gets the device, the length 65 and, for the
timed read, the caller's timeout unchanged. -/
theorem read_returns_native_bytes (st : QHidApiPrivate) (id : Nat) (timeout rep : Int)
    (buf : QByteArray) (hdev : findId st id ≠ NULL) (hbuf : buf.length = 65) :
    (read st id (rep, buf)).2 = [NativeCall.hid_read (findId st id) 65] ∧
    (readTimeout st id timeout (rep, buf)).2
      = [NativeCall.hid_read_timeout (findId st id) 65 timeout] ∧
    (rep ≤ 0 →
      (read st id (rep, buf)).1 = [] ∧ (readTimeout st id timeout (rep, buf)).1 = []) ∧
    (0 < rep → rep ≤ 65 →
      (read st id (rep, buf)).1 = buf.take rep.toNat ∧
      (readTimeout st id timeout (rep, buf)).1 = buf.take rep.toNat ∧
      (((read st id (rep, buf)).1.length : Nat) : Int) = rep ∧
      (((readTimeout st id timeout (rep, buf)).1.length : Nat) : Int) = rep ∧
      (read st id (rep, buf)).1.length ≤ 65 ∧
      (readTimeout st id timeout (rep, buf)).1.length ≤ 65) := by
  refine ⟨?_, ?_, ?_, ?_⟩
  · by_cases hr : rep > 0 <;> simp [QHidApiPrivate.read, hdev, hr]
  · by_cases hr : rep > 0 <;> simp [readTimeout, hdev, hr]
  · intro hr
    have hr' : ¬ rep > 0 := by omega
    simp [QHidApiPrivate.read, readTimeout, hdev, hr']
  · intro hpos hle
    have hr : rep > 0 := hpos
    have hn : rep.toNat ≤ 65 := by omega
    have hcast : ((rep.toNat : Nat) : Int) = rep := Int.toNat_of_nonneg (by omega)
    simp [QHidApiPrivate.read, readTimeout, hdev, hr, List.length_take, hbuf, hn, hcast]

theorem read_returns_native_bytes_witness :
    findId (openVidPid QHidApiPrivate.construct 1 2 "" 7).2.1 1 ≠ NULL ∧
    ((List.range 65 : QByteArray).length = 65) ∧
    (readTimeout (openVidPid QHidApiPrivate.construct 1 2 "" 7).2.1 1 250 (3, List.range 65)).2
      = [NativeCall.hid_read_timeout (findId (openVidPid QHidApiPrivate.construct 1 2 "" 7).2.1 1)
          65 250] ∧
    (read (openVidPid QHidApiPrivate.construct 1 2 "" 7).2.1 1 (3, List.range 65)).1
      = (List.range 65).take (3 : Int).toNat :=
  ⟨by decide, by decide,
   (read_returns_native_bytes (openVidPid QHidApiPrivate.construct 1 2 "" 7).2.1 1 250 3
     (List.range 65) (by decide) (by decide)).2.1,
   ((read_returns_native_bytes (openVidPid QHidApiPrivate.construct 1 2 "" 7).2.1 1 250 3
     (List.range 65) (by decide) (by decide)).2.2.2 (by decide) (by decide)).1⟩

/-! ## Handle allocation -/

theorem counter_moves (x : Nat) : (x + 1) % 2 ^ 32 ≠ x := by omega

theorem openNewProduct_counter (st : QHidApiPrivate) (v p : Nat) (s : String) (d : HidDevice) :
    (openNewProduct st v p s d).2.1.mNextId = st.mNextId ∨
    ((openNewProduct st v p s d).1 = st.mNextId ∧
      (openNewProduct st v p s d).2.1.mNextId = (st.mNextId + 1) % 2 ^ 32) := by
  unfold openNewProduct
  split <;> split <;> simp [nextId]

theorem openVidPid_counter (st : QHidApiPrivate) (v p : Nat) (s : String) (d : HidDevice) :
    (openVidPid st v p s d).2.1.mNextId = st.mNextId ∨
    ((openVidPid st v p s d).1 = st.mNextId ∧
      (openVidPid st v p s d).2.1.mNextId = (st.mNextId + 1) % 2 ^ 32) := by
  unfold openVidPid
  split
  · exact openNewProduct_counter st v p s d
  · unfold openProduct
    split
    · exact Or.inl rfl
    · exact openNewProduct_counter st v p s d

theorem openPath_counter (st : QHidApiPrivate) (path : String) (d : HidDevice) :
    (openPath st path d).2.1.mNextId = st.mNextId ∨
    ((openPath st path d).1 = st.mNextId ∧
      (openPath st path d).2.1.mNextId = (st.mNextId + 1) % 2 ^ 32) := by
  unfold openPath
  split
  · exact Or.inl rfl
  · split
    · exact Or.inl rfl
    · split
      · exact Or.inl rfl
      · simp [nextId]

theorem allocated_cases (st : QHidApiPrivate) (op : Op) :
    (allocated st op = none ∧ (step st op).mNextId = st.mNextId) ∨
    (allocated st op = some st.mNextId ∧
      (step st op).mNextId = (st.mNextId + 1) % 2 ^ 32) := by
  by_cases hc : (step st op).mNextId = st.mNextId
  · exact Or.inl ⟨by simp [allocated, hc], hc⟩
  · right
    cases op with
    | openVidPid v p s d =>
      rcases openVidPid_counter st v p s d with h | ⟨h1, h2⟩
      · exact absurd h hc
      · exact ⟨by simp [allocated, hc, returned, h1], h2⟩
    | openPath path d =>
      rcases openPath_counter st path d with h | ⟨h1, h2⟩
      · exact absurd h hc
      · exact ⟨by simp [allocated, hc, returned, h1], h2⟩
    | close id => exact absurd (by simp [step, close_state]) hc

theorem allocations_eq (ops : List Op) (st : QHidApiPrivate) (hlt : st.mNextId < 2 ^ 32) :
    allocations st ops
      = (List.range (allocations st ops).length).map (fun i => (st.mNextId + i) % 2 ^ 32) := by
  induction ops generalizing st with
  | nil => simp [allocations]
  | cons op ops ih =>
    rcases allocated_cases st op with ⟨ha, hn⟩ | ⟨ha, hn⟩
    · have h := ih (step st op) (by rw [hn]; exact hlt)
      rw [hn] at h
      simpa [allocations, ha] using h
    · have h := ih (step st op) (by rw [hn]; exact Nat.mod_lt _ (by norm_num))
      rw [hn] at h
      simp only [allocations, ha, List.length_cons, List.range_succ_eq_map, List.map_cons,
        List.map_map]
      rw [List.cons.injEq]
      refine ⟨by simp only [Nat.add_zero]; omega, ?_⟩
      rw [h]
      simp only [List.length_map, List.length_range]
      apply List.map_congr_left
      intro i _
      simp only [Function.comp, Nat.succ_eq_add_one]
      omega

theorem exists_allocations (n : Nat) (st : QHidApiPrivate) :
    ∃ ops : List Op, (allocations st ops).length = n := by
  induction n generalizing st with
  | zero => exact ⟨[], rfl⟩
  | succ n ih =>
    obtain ⟨path, hp⟩ := exists_fresh_path st
    obtain ⟨d, hd, hc⟩ := exists_fresh_device st
    obtain ⟨ops, hops⟩ := ih (step st (Op.openPath path d))
    refine ⟨Op.openPath path d :: ops, ?_⟩
    have hmove : (step st (Op.openPath path d)).mNextId ≠ st.mNextId := by
      simp only [step]
      rw [(openPath_fresh st path d hp hd hc).2]
      exact counter_moves _
    rcases allocated_cases st (Op.openPath path d) with ⟨_, hn⟩ | ⟨ha, _⟩
    · exact absurd hn hmove
    · simp [allocations, ha, hops]

/-- C11, as stated, fails: there is a sequence of operations on a fresh registry
(`2^32 + 1` registrations of fresh paths) in which a handle value is allocated
twice, because the counter `mNextId` wraps modulo `2^32`. -/
theorem handle_allocated_twice_after_wrap :
    ¬ ∀ ops : List Op, (allocations QHidApiPrivate.construct ops).Nodup := by
  intro H
  obtain ⟨ops, hlen⟩ := exists_allocations (2 ^ 32 + 1) QHidApiPrivate.construct
  have hnd := H ops
  rw [allocations_eq ops QHidApiPrivate.construct (by decide), hlen] at hnd
  have h0 : (0 : Nat) ∈ List.range (2 ^ 32 + 1) := List.mem_range.mpr (by norm_num)
  have h1 : (2 ^ 32 : Nat) ∈ List.range (2 ^ 32 + 1) := List.mem_range.mpr (by norm_num)
  have heq := List.inj_on_of_nodup_map hnd h0 h1
    (by simp [QHidApiPrivate.construct])
  norm_num at heq

/-- C11 (amended). On a freshly constructed registry the first open whose native
open succeeds returns 1, and for every sequence of operations that allocates
fewer than `2^32` handles (the 32-bit counter has not wrapped) the handles
allocated are `1, 2, ..., n` in this order: each is the previous allocation plus
1, strictly greater than every handle allocated before it, and none is allocated
twice. -/
theorem handles_allocated_in_sequence (ops : List Op) (v p : Nat) (s path : String)
    (d : HidDevice) :
    (d ≠ NULL →
      (openVidPid QHidApiPrivate.construct v p s d).1 = 1 ∧
      (openPath QHidApiPrivate.construct path d).1 = 1) ∧
    ((allocations QHidApiPrivate.construct ops).length < 2 ^ 32 →
      allocations QHidApiPrivate.construct ops
        = List.range' 1 (allocations QHidApiPrivate.construct ops).length ∧
      (allocations QHidApiPrivate.construct ops).Pairwise (fun a b => a < b) ∧
      (allocations QHidApiPrivate.construct ops).Nodup) := by
  constructor
  · intro hd
    constructor
    · by_cases hs : s.isEmpty = true <;>
        simp [openVidPid, openNewProduct, QMultiMap.values, QHidApiPrivate.construct, hs, hd,
          nextId]
    · simp [openPath, QMap.contains, QHidApiPrivate.construct, hd, nextId]
  · intro hlen
    have key : allocations QHidApiPrivate.construct ops
        = List.range' 1 (allocations QHidApiPrivate.construct ops).length := by
      have h := allocations_eq ops QHidApiPrivate.construct (by decide)
      rw [List.range'_eq_map_range]
      refine h.trans ?_
      apply List.map_congr_left
      intro i hi
      have hi' := List.mem_range.mp hi
      have h1 : (QHidApiPrivate.construct).mNextId = 1 := rfl
      simp only [h1]
      exact Nat.mod_eq_of_lt (by omega)
    refine ⟨key, ?_, ?_⟩
    · rw [key]
      exact List.pairwise_lt_range' 1 _
    · rw [key]
      exact List.nodup_range' 1 _

theorem handles_allocated_in_sequence_witness :
    ((7 : HidDevice) ≠ NULL ∧
      (openVidPid QHidApiPrivate.construct 1 2 "A" 7).1 = 1 ∧
      (openPath QHidApiPrivate.construct "/dev/hidraw0" 7).1 = 1) ∧
    ((allocations QHidApiPrivate.construct
        [Op.openVidPid 1 2 "" 7, Op.close 1, Op.openPath "/dev/hidraw0" 8]).length < 2 ^ 32 ∧
      allocations QHidApiPrivate.construct
          [Op.openVidPid 1 2 "" 7, Op.close 1, Op.openPath "/dev/hidraw0" 8]
        = List.range' 1 (allocations QHidApiPrivate.construct
            [Op.openVidPid 1 2 "" 7, Op.close 1, Op.openPath "/dev/hidraw0" 8]).length) :=
  ⟨⟨by decide,
    (handles_allocated_in_sequence
      [Op.openVidPid 1 2 "" 7, Op.close 1, Op.openPath "/dev/hidraw0" 8] 1 2 "A"
      "/dev/hidraw0" 7).1 (by decide)⟩,
   ⟨by decide,
    ((handles_allocated_in_sequence
      [Op.openVidPid 1 2 "" 7, Op.close 1, Op.openPath "/dev/hidraw0" 8] 1 2 "A"
      "/dev/hidraw0" 7).2 (by decide)).1⟩⟩

/-! ## Identity matching -/

/-- C12. Failing input: on a fresh registry `open(1, 2, "A")` issues the native
call `hid_open(0x4d8, 0xf1fa, NULL)`, not `hid_open(1, 2, "A")`: neither the
caller's vendor id, nor its product id, nor its serial number reaches the native
layer.  (With an empty serial number the caller's ids are passed.) -/
theorem serial_open_ignores_caller_identity :
    (openVidPid QHidApiPrivate.construct 1 2 "A" 7).2.2
      = [NativeCall.hid_open 0x4d8 0xf1fa none] ∧
    (openVidPid QHidApiPrivate.construct 1 2 "A" 7).2.2
      ≠ [NativeCall.hid_open 1 2 (some "A")] ∧
    (openVidPid QHidApiPrivate.construct 1 2 "" 7).2.2 = [NativeCall.hid_open 1 2 none] := by
  refine ⟨?_, ?_, ?_⟩ <;> decide

/-- C13. Failing input: after `open(1, 2, "A")` (answered with device `7`,
handle `1`), `open(1, 2, "B")` returns handle `1` with no native call and no
change of state, although handle `1` was registered for serial number `"A"`;
after `open(1, 2, "")` (handle `1`, registered without a serial number),
`open(1, 2, "B")` returns handle `1` in the same way. -/
theorem serial_open_matches_other_serial :
    (openVidPid QHidApiPrivate.construct 1 2 "A" 7).1 = 1 ∧
    openVidPid (openVidPid QHidApiPrivate.construct 1 2 "A" 7).2.1 1 2 "B" 8
      = (1, (openVidPid QHidApiPrivate.construct 1 2 "A" 7).2.1, []) ∧
    (openVidPid QHidApiPrivate.construct 1 2 "" 7).1 = 1 ∧
    openVidPid (openVidPid QHidApiPrivate.construct 1 2 "" 7).2.1 1 2 "B" 8
      = (1, (openVidPid QHidApiPrivate.construct 1 2 "" 7).2.1, []) := by
  refine ⟨?_, ?_, ?_, ?_⟩ <;> decide

theorem vendorEntriesResolved_construct : VendorEntriesResolved QHidApiPrivate.construct := by
  simp [VendorEntriesResolved, QHidApiPrivate.construct]

theorem vendorEntriesResolved_openPath (st : QHidApiPrivate) (path : String) (d : HidDevice)
    (h : VendorEntriesResolved st) : VendorEntriesResolved (openPath st path d).2.1 := by
  unfold openPath
  split
  · exact h
  · split
    · exact h
    · split
      · exact h
      · intro vm hvm pe hpe
        rcases h vm hvm pe hpe with ⟨id, hid, hc⟩ | hsn
        · exact Or.inl ⟨id, hid, QMap.contains_insert_of_contains _ _ _ _ hc⟩
        · exact Or.inr hsn

theorem vendorEntriesResolved_openNewProduct (st : QHidApiPrivate) (v p : Nat) (s : String)
    (d : HidDevice) (h : VendorEntriesResolved st) :
    VendorEntriesResolved (openNewProduct st v p s d).2.1 := by
  unfold openNewProduct
  split
  · split
    · intro vm hvm pe hpe
      rcases QMultiMap.mem_multiInsert _ _ _ _ hvm with rfl | hvm
      · simp [QMultiMap.insert] at hpe
        subst hpe
        exact Or.inl ⟨_, rfl, QMap.contains_insert_self _ _ _⟩
      · rcases h vm hvm pe hpe with ⟨id, hid, hc⟩ | hsn
        · exact Or.inl ⟨id, hid, QMap.contains_insert_of_contains _ _ _ _ hc⟩
        · exact Or.inr hsn
    · exact h
  · split
    · intro vm hvm pe hpe
      rcases QMultiMap.mem_multiInsert _ _ _ _ hvm with rfl | hvm
      · simp [QMultiMap.insert] at hpe
        subst hpe
        exact Or.inr ⟨_, rfl⟩
      · rcases h vm hvm pe hpe with ⟨id, hid, hc⟩ | hsn
        · exact Or.inl ⟨id, hid, QMap.contains_insert_of_contains _ _ _ _ hc⟩
        · exact Or.inr hsn
    · exact h

theorem vendorEntriesResolved_of_reachable (st : QHidApiPrivate) (h : Reachable st) :
    VendorEntriesResolved st := by
  induction h with
  | construct => exact vendorEntriesResolved_construct
  | openVidPid st v p s d _ ih =>
    unfold openVidPid
    split
    · exact vendorEntriesResolved_openNewProduct st v p s d ih
    · unfold openProduct
      split
      · exact ih
      · exact vendorEntriesResolved_openNewProduct st v p s d ih
  | openPath st path d _ ih => exact vendorEntriesResolved_openPath st path d ih
  | close st id _ ih => rw [close_state]; exact ih

theorem pmapLoop_eq_find (st : QHidApiPrivate) (p : Nat) (pmap : List (Nat × QVariant))
    (hres : ∀ pe ∈ pmap,
      (∃ id, pe.2 = QVariant.uint id ∧ st.mIdDeviceMap.contains id = true) ∨
      (∃ sn, pe.2 = QVariant.string sn)) :
    openProduct_pmapLoop st p pmap
      = (pmap.find? (fun e => decide (e.1 = p))).map (fun e => entryHandle st e.2) := by
  induction pmap with
  | nil => simp [openProduct_pmapLoop]
  | cons a rest ih =>
    obtain ⟨q, var⟩ := a
    have ih' := ih (fun pe hpe => hres pe (List.mem_cons_of_mem _ hpe))
    by_cases hq : q = p
    · rcases hres (q, var) (List.mem_cons_self _ _) with ⟨id, hid, hc⟩ | ⟨sn, hsn⟩
      · simp only at hid
        subst hid
        simp [openProduct_pmapLoop, hq, hc, entryHandle]
      · simp only at hsn
        subst hsn
        simp [openProduct_pmapLoop, hq, entryHandle]
    · simp [openProduct_pmapLoop, hq, ih']

theorem vmapLoop_eq_firstEntry (st : QHidApiPrivate) (p : Nat)
    (vmap : List (QMultiMap QVariant))
    (hres : ∀ pmap ∈ vmap, ∀ pe ∈ pmap,
      (∃ id, pe.2 = QVariant.uint id ∧ st.mIdDeviceMap.contains id = true) ∨
      (∃ sn, pe.2 = QVariant.string sn)) :
    openProduct_vmapLoop st p vmap = (firstEntry vmap p).map (entryHandle st) := by
  induction vmap with
  | nil => simp [openProduct_vmapLoop, firstEntry]
  | cons pmap rest ih =>
    have ih' := ih (fun pm hpm => hres pm (List.mem_cons_of_mem _ hpm))
    have hp := pmapLoop_eq_find st p pmap (hres pmap (List.mem_cons_self _ _))
    simp only [firstEntry] at ih' ⊢
    simp only [openProduct_vmapLoop, hp, List.flatten_cons, List.find?_append]
    cases hf : List.find? (fun e => decide (e.1 = p)) pmap with
    | some e => simp
    | none => simpa using ih'

theorem firstEntry_mem (vmap : List (QMultiMap QVariant)) (p : Nat) (e : QVariant)
    (h : firstEntry vmap p = some e) : ∃ pmap ∈ vmap, (p, e) ∈ pmap := by
  unfold firstEntry at h
  cases ha : List.find? (fun e => decide (e.1 = p)) vmap.flatten with
  | none => rw [ha] at h; simp at h
  | some a =>
  rw [ha] at h
  simp only [Option.map_some', Option.some.injEq] at h
  subst h
  have hmem := List.mem_of_find?_eq_some ha
  have hk := List.find?_some ha
  simp only [decide_eq_true_eq] at hk
  obtain ⟨pmap, hpm, hin⟩ := List.mem_flatten.mp hmem
  refine ⟨pmap, hpm, ?_⟩
  obtain ⟨k, w⟩ := a
  simp only at hk
  subst hk
  exact hin

theorem open_registered_product (st : QHidApiPrivate) (hr : Reachable st) (v p : Nat)
    (s : String) (d : HidDevice) (e : QVariant)
    (he : firstEntry (st.mVendorMap.values v) p = some e) :
    openVidPid st v p s d = (entryHandle st e, st, []) ∧
    st.mIdDeviceMap.contains (entryHandle st e) = true := by
  have hres := vendorEntriesResolved_of_reachable st hr
  have hreg := handlesRegistered_of_reachable st hr
  obtain ⟨pmap, hpm, hin⟩ := firstEntry_mem _ p e he
  have hvm := QMultiMap.mem_of_mem_values _ _ _ hpm
  have hloop := vmapLoop_eq_firstEntry st p (st.mVendorMap.values v)
    (fun pm hpm' pe hpe => hres (v, pm) (QMultiMap.mem_of_mem_values _ _ _ hpm') pe hpe)
  rw [he] at hloop
  constructor
  · have hne : (st.mVendorMap.values v).isEmpty = false := by
      cases hv : st.mVendorMap.values v with
      | nil => rw [hv] at hpm; simp at hpm
      | cons a l => rfl
    simp [openVidPid, hne, openProduct, hloop]
  · rcases hres (v, pmap) hvm (p, e) hin with ⟨id, hid, hc⟩ | ⟨sn, hsn⟩
    · simp only at hid
      subst hid
      simpa [entryHandle] using hc
    · simp only at hsn
      subst hsn
      have hcs := hreg.2.2.2 (v, pmap) hvm (p, QVariant.string sn) hin sn rfl
      obtain ⟨e', he', _, hv⟩ := QMap.value_of_contains st.mSerDevices sn 0 hcs
      simp only [entryHandle]
      rw [hv]
      exact hreg.2.1 e' he'

/-- C14. Failing input: `open(1, 2, "A")` answered with device `7` returns
handle `1` and creates the only vendor-table entry for `(1, 2)`; `open(3, 4, "A")`
answered with device `8` returns handle `2` and overwrites the serial-table entry
of `"A"`.  In this reachable state `open(1, 2, "")` issues no native call and
leaves the state unchanged, but it returns `2`, the handle of `(3, 4, "A")`, and
not handle `1` under which the first (and only) entry for `(1, 2)` was
registered. -/
theorem empty_serial_returns_foreign_handle :
    (openVidPid QHidApiPrivate.construct 1 2 "A" 7).1 = 1 ∧
    (openVidPid (openVidPid QHidApiPrivate.construct 1 2 "A" 7).2.1 3 4 "A" 8).1 = 2 ∧
    Reachable (openVidPid (openVidPid QHidApiPrivate.construct 1 2 "A" 7).2.1 3 4 "A" 8).2.1 ∧
    entriesFor (openVidPid (openVidPid QHidApiPrivate.construct 1 2 "A" 7).2.1 3 4 "A" 8).2.1
      1 2 = [(2, QVariant.string "A")] ∧
    openVidPid (openVidPid (openVidPid QHidApiPrivate.construct 1 2 "A" 7).2.1 3 4 "A" 8).2.1
        1 2 "" 9
      = (2, (openVidPid (openVidPid QHidApiPrivate.construct 1 2 "A" 7).2.1 3 4 "A" 8).2.1,
          []) := by
  refine ⟨?_, ?_, Reachable.openVidPid _ 3 4 "A" 8
    (Reachable.openVidPid _ 1 2 "A" 7 Reachable.construct), ?_, ?_⟩ <;> decide

/-! ## String queries and blocking mode -/

/-- C15. Failing input: on a fresh registry handle `3` does not resolve
(`findId(3)` is `NULL`), yet `manufacturerString(3)`, `productString(3)`,
`serialNumberString(3)` and `indexedString(3, 1)` each issue their native string
query with the `NULL` device, and return whatever string the native call left
when its return code is not `-1`. -/
theorem string_query_calls_native_with_null :
    findId QHidApiPrivate.construct 3 = NULL ∧
    manufacturerString QHidApiPrivate.construct 3 (0, "x")
      = ("x", [NativeCall.hid_get_manufacturer_string NULL 255]) ∧
    productString QHidApiPrivate.construct 3 (0, "x")
      = ("x", [NativeCall.hid_get_product_string NULL 255]) ∧
    serialNumberString QHidApiPrivate.construct 3 (0, "x")
      = ("x", [NativeCall.hid_get_serial_number_string NULL 255]) ∧
    indexedString QHidApiPrivate.construct 3 1 (0, "x")
      = ("x", [NativeCall.hid_get_indexed_string NULL 1 255]) ∧
    manufacturerString QHidApiPrivate.construct 3 (-1, "x")
      = ("", [NativeCall.hid_get_manufacturer_string NULL 255]) := by
  refine ⟨?_, ?_, ?_, ?_, ?_, ?_⟩ <;> decide

/-- C16. Failing input: with handle `1` open on device `7`, `setBlocking(1)` and
`setNonBlocking(1)` return `false` when the native call succeeds (return code
`0`) and `true` when it fails (return code `-1`): the result is `!!rep`. -/
theorem set_blocking_result_inverted :
    findId (openVidPid QHidApiPrivate.construct 1 2 "" 7).2.1 1 = 7 ∧
    (setBlocking (openVidPid QHidApiPrivate.construct 1 2 "" 7).2.1 1 0).1 = false ∧
    (setBlocking (openVidPid QHidApiPrivate.construct 1 2 "" 7).2.1 1 (-1)).1 = true ∧
    (setNonBlocking (openVidPid QHidApiPrivate.construct 1 2 "" 7).2.1 1 0).1 = false ∧
    (setNonBlocking (openVidPid QHidApiPrivate.construct 1 2 "" 7).2.1 1 (-1)).1 = true := by
  refine ⟨?_, ?_, ?_, ?_, ?_⟩ <;> decide

/-- C17. Failing input: with handle `1` open on device `7`, `setBlocking(1)`
issues `hid_set_nonblocking(7, 1)` (non-blocking mode) and `setNonBlocking(1)`
issues `hid_set_nonblocking(7, 0)` (blocking mode): the flags are swapped. -/
theorem set_blocking_flag_swapped :
    findId (openVidPid QHidApiPrivate.construct 1 2 "" 7).2.1 1 = 7 ∧
    (setBlocking (openVidPid QHidApiPrivate.construct 1 2 "" 7).2.1 1 0).2
      = [NativeCall.hid_set_nonblocking 7 1] ∧
    (setNonBlocking (openVidPid QHidApiPrivate.construct 1 2 "" 7).2.1 1 0).2
      = [NativeCall.hid_set_nonblocking 7 0] := by
  refine ⟨?_, ?_, ?_⟩ <;> decide

/-! ## The two handle tables -/

/-- C18. Failing input: `open(1, 2, "")` answered with device `7` (handle `1`),
`close(1)`, then `open(3, 4, "")` answered with the address `7` again (handle
`2`).  The state is reachable, `mIdDeviceMap` maps both handle `1` and handle
`2` to device `7`, and `mDeviceIdMap` maps device `7` to handle `2` only. -/
theorem handle_tables_not_inverse :
    Reachable (openVidPid (close (openVidPid QHidApiPrivate.construct 1 2 "" 7).2.1 1).1
      3 4 "" 7).2.1 ∧
    findId (openVidPid (close (openVidPid QHidApiPrivate.construct 1 2 "" 7).2.1 1).1
      3 4 "" 7).2.1 1 = 7 ∧
    findId (openVidPid (close (openVidPid QHidApiPrivate.construct 1 2 "" 7).2.1 1).1
      3 4 "" 7).2.1 2 = 7 ∧
    (openVidPid (close (openVidPid QHidApiPrivate.construct 1 2 "" 7).2.1 1).1
      3 4 "" 7).2.1.mIdDeviceMap.value 1 NULL = 7 ∧
    (openVidPid (close (openVidPid QHidApiPrivate.construct 1 2 "" 7).2.1 1).1
      3 4 "" 7).2.1.mDeviceIdMap.value 7 0 = 2 := by
  refine ⟨Reachable.openVidPid _ 3 4 "" 7
    (Reachable.close _ 1 (Reachable.openVidPid _ 1 2 "" 7 Reachable.construct)), ?_, ?_, ?_, ?_⟩
    <;> decide

/-! ## Enumeration -/

theorem enumerate_loop_eq (winOrMac : Bool) (acc : List QHidDeviceInfo)
    (info : List hid_device_info) :
    enumerate_loop winOrMac acc info = acc ++ info.map (enumerate_fill winOrMac) := by
  induction info generalizing acc with
  | nil => simp [enumerate_loop]
  | cons a rest ih => simp [enumerate_loop, ih]

theorem enumerate_eq (winOrMac : Bool) (l : List QHidDeviceInfo) (v p : Nat)
    (info : List hid_device_info) :
    (enumerate winOrMac l v p info).1 = info.map (enumerate_fill winOrMac) ∧
    (enumerate winOrMac l v p info).2.1 = info.map (enumerate_fill winOrMac) := by
  simp [enumerate, clear, enumerate_loop_eq]

/-- C19. For every native list `info`, `enumerate` returns (and stores) a list of
the same length whose `i`-th element carries the `i`-th descriptor's path, vendor
id, product id, manufacturer, product and serial strings, release number and
interface number; an empty native list gives the empty list; the stored list is
replaced, so a second `enumerate` returns the second native list's items only,
whatever was stored before. -/
theorem enumerate_mirrors_native (winOrMac : Bool) (l : List QHidDeviceInfo) (v p w q : Nat)
    (info info2 : List hid_device_info) :
    (enumerate winOrMac l v p info).1.length = info.length ∧
    (∀ (i : Nat) (d : hid_device_info), info.get? i = some d →
      ∃ r, (enumerate winOrMac l v p info).1.get? i = some r ∧
        r.path = d.path ∧ r.vendorId = d.vendor_id ∧ r.productId = d.product_id ∧
        r.manufacturerString = d.manufacturer_string ∧ r.productString = d.product_string ∧
        r.serialNumber = d.serial_number ∧ r.releaseNumber = d.release_number ∧
        r.interfaceNumber = d.interface_number) ∧
    (enumerate winOrMac l v p []).1 = [] ∧
    (enumerate winOrMac l v p info).2.1 = (enumerate winOrMac l v p info).1 ∧
    (enumerate winOrMac (enumerate winOrMac l v p info).2.1 w q info2).1
      = (enumerate winOrMac [] w q info2).1 ∧
    (enumerate winOrMac (enumerate winOrMac l v p info).2.1 w q info2).1.length
      = info2.length := by
  refine ⟨?_, ?_, ?_, ?_, ?_, ?_⟩
  · rw [(enumerate_eq winOrMac l v p info).1, List.length_map]
  · intro i d hd
    refine ⟨enumerate_fill winOrMac d, ?_, rfl, rfl, rfl, rfl, rfl, rfl, rfl, rfl⟩
    rw [(enumerate_eq winOrMac l v p info).1]
    simp [List.get?_eq_getElem?, List.getElem?_map] at hd ⊢
    exact ⟨d, hd, rfl⟩
  · rw [(enumerate_eq winOrMac l v p []).1]
    rfl
  · rw [(enumerate_eq winOrMac l v p info).1, (enumerate_eq winOrMac l v p info).2]
  · rw [(enumerate_eq winOrMac _ w q info2).1, (enumerate_eq winOrMac [] w q info2).1]
  · rw [(enumerate_eq winOrMac _ w q info2).1, List.length_map]

theorem enumerate_mirrors_native_witness :
    ([({ path := "/dev/hidraw0", vendor_id := 1, product_id := 2, serial_number := "A",
         release_number := 3, manufacturer_string := "Acme", product_string := "Pad",
         usage_page := 0, usage := 0, interface_number := 0 } : hid_device_info)].get? 0
      = some { path := "/dev/hidraw0", vendor_id := 1, product_id := 2, serial_number := "A",
               release_number := 3, manufacturer_string := "Acme", product_string := "Pad",
               usage_page := 0, usage := 0, interface_number := 0 }) ∧
    ∃ r, (enumerate false [] 1 2
        [{ path := "/dev/hidraw0", vendor_id := 1, product_id := 2, serial_number := "A",
           release_number := 3, manufacturer_string := "Acme", product_string := "Pad",
           usage_page := 0, usage := 0, interface_number := 0 }]).1.get? 0 = some r ∧
      r.path = "/dev/hidraw0" ∧ r.vendorId = 1 ∧ r.productId = 2 ∧
      r.manufacturerString = "Acme" ∧ r.productString = "Pad" ∧
      r.serialNumber = "A" ∧ r.releaseNumber = 3 ∧ r.interfaceNumber = 0 :=
  ⟨rfl,
   (enumerate_mirrors_native false [] 1 2 0 0
      [{ path := "/dev/hidraw0", vendor_id := 1, product_id := 2, serial_number := "A",
         release_number := 3, manufacturer_string := "Acme", product_string := "Pad",
         usage_page := 0, usage := 0, interface_number := 0 }] []).2.1 0 _ rfl⟩

/-! ## Table model -/

/-- C20. Failing input: a model holding one device with vendor id `1`, product id
`2`, manufacturer `"Acme"`.  `headerData(1)` is `"Manufacturer"` but
`data(0, 1)` is the product id `2`; `headerData(2)` is `"Product Id"` but
`data(0, 2)` is the manufacturer string `"Acme"`. -/
theorem model_columns_one_two_swapped :
    QHidDeviceInfoModel.headerData
      (QHidDeviceInfoModel.construct
        [{ path := "/dev/hidraw0", vendorId := 1, productId := 2, serialNumber := "A",
           releaseNumber := 3, manufacturerString := "Acme", productString := "Pad",
           usagePage := none, usage := none, interfaceNumber := 0 }])
      1 Orientation.Horizontal DisplayRole = QVariant.string "Manufacturer" ∧
    QHidDeviceInfoModel.data
      (QHidDeviceInfoModel.construct
        [{ path := "/dev/hidraw0", vendorId := 1, productId := 2, serialNumber := "A",
           releaseNumber := 3, manufacturerString := "Acme", productString := "Pad",
           usagePage := none, usage := none, interfaceNumber := 0 }])
      0 1 DisplayRole = some (QVariant.int 2) ∧
    QHidDeviceInfoModel.headerData
      (QHidDeviceInfoModel.construct
        [{ path := "/dev/hidraw0", vendorId := 1, productId := 2, serialNumber := "A",
           releaseNumber := 3, manufacturerString := "Acme", productString := "Pad",
           usagePage := none, usage := none, interfaceNumber := 0 }])
      2 Orientation.Horizontal DisplayRole = QVariant.string "Product Id" ∧
    QHidDeviceInfoModel.data
      (QHidDeviceInfoModel.construct
        [{ path := "/dev/hidraw0", vendorId := 1, productId := 2, serialNumber := "A",
           releaseNumber := 3, manufacturerString := "Acme", productString := "Pad",
           usagePage := none, usage := none, interfaceNumber := 0 }])
      0 2 DisplayRole = some (QVariant.string "Acme") := by
  refine ⟨?_, ?_, ?_, ?_⟩ <;> decide

/-! ## Reports -/

/-- C21. For a handle that resolves, every report id and every `data` of at most
64 bytes, `write(id, data, reportId)` issues exactly one `hid_write` with the
bytes `reportId` followed by `data` (length `data.length + 1`, at most 65),
`sendFeatureReport(id, reportId, data)` issues `hid_send_feature_report` with the
same bytes, and each returns the native return code unchanged.  `data` is taken
by value, so the caller's array is the unchanged tail of the bytes sent. -/
theorem report_is_id_then_data (st : QHidApiPrivate) (id reportId : Nat) (data : QByteArray)
    (rep : Int) (hdev : findId st id ≠ NULL) (hlen : data.length ≤ 64) :
    writeReport st id data reportId rep
      = (rep, [NativeCall.hid_write (findId st id) (reportId :: data) (data.length + 1)]) ∧
    sendFeatureReport st id reportId data rep
      = (rep, [NativeCall.hid_send_feature_report (findId st id) (reportId :: data)
                (data.length + 1)]) ∧
    (reportId :: data).length = data.length + 1 ∧
    data.length + 1 ≤ 65 ∧
    (reportId :: data).tail = data := by
  have h64 : ¬ data.length > 64 := by omega
  refine ⟨?_, ?_, rfl, by omega, rfl⟩
  · simp [writeReport, h64, hdev]
  · simp [sendFeatureReport, h64, hdev]

theorem report_is_id_then_data_witness :
    findId (openVidPid QHidApiPrivate.construct 1 2 "" 7).2.1 1 ≠ NULL ∧
    ([10, 20] : QByteArray).length ≤ 64 ∧
    writeReport (openVidPid QHidApiPrivate.construct 1 2 "" 7).2.1 1 [10, 20] 3 5
      = (5, [NativeCall.hid_write (findId (openVidPid QHidApiPrivate.construct 1 2 "" 7).2.1 1)
              (3 :: [10, 20]) (([10, 20] : QByteArray).length + 1)]) :=
  ⟨by decide, by decide,
   (report_is_id_then_data (openVidPid QHidApiPrivate.construct 1 2 "" 7).2.1 1 3 [10, 20] 5
     (by decide) (by decide)).1⟩

/-- C22. The overload `write(id, data)` returns `-1` with no native call if and
only if `data` is longer than 65 bytes or the handle does not resolve;
otherwise it issues `hid_write` with `data` itself (nothing prepended) and
returns the native return code.  For both write overloads every report handed
to `hid_write` has at most 65 bytes. -/
theorem plain_write_passes_data (st : QHidApiPrivate) (id reportId : Nat) (data : QByteArray)
    (rep : Int) :
    (write st id data rep = (-1, []) ↔ (65 < data.length ∨ findId st id = NULL)) ∧
    (¬ (65 < data.length ∨ findId st id = NULL) →
      write st id data rep = (rep, [NativeCall.hid_write (findId st id) data data.length])) ∧
    (∀ dev bytes len, NativeCall.hid_write dev bytes len ∈ (write st id data rep).2 →
      bytes.length ≤ 65 ∧ len = bytes.length) ∧
    (∀ dev bytes len, NativeCall.hid_write dev bytes len ∈ (writeReport st id data reportId rep).2 →
      bytes.length ≤ 65 ∧ len = bytes.length) := by
  by_cases hlen : data.length > 65
  · have h64 : data.length > 64 := by omega
    simp [write, writeReport, hlen, h64]
  · by_cases hdev : findId st id = NULL
    · simp [write, writeReport, hlen, hdev]
    · have hle : data.length ≤ 65 := by omega
      have hnot : ¬ 65 < data.length := by omega
      refine ⟨?_, ?_, ?_, ?_⟩
      · simp [write, hlen, hdev, hnot]
      · intro _
        simp [write, hlen, hdev]
      · intro dev bytes len hmem
        simp [write, hlen, hdev] at hmem
        obtain ⟨_, rfl, rfl⟩ := hmem
        exact ⟨hle, rfl⟩
      · intro dev bytes len hmem
        by_cases h64 : data.length > 64
        · simp [writeReport, h64] at hmem
        · simp [writeReport, h64, hdev] at hmem
          obtain ⟨_, rfl, rfl⟩ := hmem
          refine ⟨?_, rfl⟩
          simp only [List.length_cons]
          omega

theorem plain_write_passes_data_witness :
    ¬ (65 < ([0, 10, 20] : QByteArray).length ∨
        findId (openVidPid QHidApiPrivate.construct 1 2 "" 7).2.1 1 = NULL) ∧
    write (openVidPid QHidApiPrivate.construct 1 2 "" 7).2.1 1 [0, 10, 20] 3
      = (3, [NativeCall.hid_write (findId (openVidPid QHidApiPrivate.construct 1 2 "" 7).2.1 1)
              [0, 10, 20] ([0, 10, 20] : QByteArray).length]) :=
  ⟨by decide,
   (plain_write_passes_data (openVidPid QHidApiPrivate.construct 1 2 "" 7).2.1 1 0 [0, 10, 20] 3
     ).2.1 (by decide)⟩

/-- C23. For a handle that resolves and every report id, `featureReport` issues
`hid_get_feature_report` with the 65-byte buffer whose first byte is
`reportId mod 256`, so report ids that differ by a multiple of 256 behave alike;
it returns the empty byte sequence when the native return code `rep` is not
positive and the first `rep` bytes of the buffer when `0 < rep` (`rep <= 65`,
the length the native layer was given). -/
theorem feature_report_truncates_id (st : QHidApiPrivate) (id reportId k : Nat) (rep : Int)
    (buf : QByteArray) (hdev : findId st id ≠ NULL) (hbuf : buf.length = 65) :
    (featureReport st id reportId (rep, buf)).2
      = [NativeCall.hid_get_feature_report (findId st id) (reportId % 256) 65] ∧
    featureReport st id (reportId + 256 * k) (rep, buf) = featureReport st id reportId (rep, buf) ∧
    (rep ≤ 0 → (featureReport st id reportId (rep, buf)).1 = []) ∧
    (0 < rep → rep ≤ 65 →
      (featureReport st id reportId (rep, buf)).1 = buf.take rep.toNat ∧
      (((featureReport st id reportId (rep, buf)).1.length : Nat) : Int) = rep) := by
  refine ⟨?_, ?_, ?_, ?_⟩
  · by_cases hr : rep > 0 <;> simp [featureReport, hdev, hr]
  · have hm : (reportId + 256 * k) % 256 = reportId % 256 := by omega
    simp [featureReport, hm]
  · intro hr
    have hr' : ¬ rep > 0 := by omega
    simp [featureReport, hdev, hr']
  · intro hpos hle
    have hr : rep > 0 := hpos
    have hn : rep.toNat ≤ 65 := by omega
    have hcast : ((rep.toNat : Nat) : Int) = rep := Int.toNat_of_nonneg (by omega)
    simp [featureReport, hdev, hr, List.length_take, hbuf, hn, hcast]

theorem feature_report_truncates_id_witness :
    findId (openVidPid QHidApiPrivate.construct 1 2 "" 7).2.1 1 ≠ NULL ∧
    (List.range 65 : QByteArray).length = 65 ∧
    (featureReport (openVidPid QHidApiPrivate.construct 1 2 "" 7).2.1 1 258
        (2, List.range 65)).2
      = [NativeCall.hid_get_feature_report
          (findId (openVidPid QHidApiPrivate.construct 1 2 "" 7).2.1 1) (258 % 256) 65] ∧
    (featureReport (openVidPid QHidApiPrivate.construct 1 2 "" 7).2.1 1 258
        (2, List.range 65)).1 = (List.range 65).take (2 : Int).toNat :=
  ⟨by decide, by decide,
   (feature_report_truncates_id (openVidPid QHidApiPrivate.construct 1 2 "" 7).2.1 1 258 0 2
     (List.range 65) (by decide) (by decide)).1,
   ((feature_report_truncates_id (openVidPid QHidApiPrivate.construct 1 2 "" 7).2.1 1 258 0 2
     (List.range 65) (by decide) (by decide)).2.2.2 (by decide) (by decide)).1⟩

/-! ## One vendor-table entry per product -/

theorem QMultiMap.mem_insert_of_mem {V : Type} (m : QMultiMap V) (k : Nat) (v : V)
    (e : Nat × V) (h : e ∈ m) : e ∈ QMultiMap.insert m k v := by
  induction m with
  | nil => simp at h
  | cons a rest ih =>
    obtain ⟨k', w⟩ := a
    by_cases hlt : k' < k
    · simp only [QMultiMap.insert, hlt, if_true, List.mem_cons]
      rcases List.mem_cons.mp h with h | h
      · exact Or.inl h
      · exact Or.inr (ih h)
    · simp only [QMultiMap.insert, hlt, if_false, List.mem_cons]
      exact Or.inr (List.mem_cons.mp h)

theorem QMultiMap.values_insert_ne {V : Type} (m : QMultiMap V) (k k' : Nat) (v : V)
    (hne : k' ≠ k) : (QMultiMap.insert m k v).values k' = m.values k' := by
  induction m with
  | nil => simp [QMultiMap.insert, QMultiMap.values, Ne.symm hne]
  | cons a rest ih =>
    obtain ⟨q, w⟩ := a
    have ih' := ih
    simp only [QMultiMap.values] at ih'
    by_cases hlt : q < k
    · by_cases hq : q = k'
      · subst hq
        simp [QMultiMap.insert, QMultiMap.values, hlt, ih']
      · simp [QMultiMap.insert, QMultiMap.values, hlt, hq, ih']
    · simp [QMultiMap.insert, QMultiMap.values, hlt, Ne.symm hne]

theorem QMultiMap.mem_values_of_mem {V : Type} (m : QMultiMap V) (k : Nat) (x : V)
    (h : (k, x) ∈ m) : x ∈ m.values k := by
  simp only [QMultiMap.values, List.mem_map, List.mem_filter, decide_eq_true_eq]
  exact ⟨(k, x), ⟨h, rfl⟩, rfl⟩

theorem firstEntry_of_entry (vmap : List (QMultiMap QVariant)) (p : Nat)
    (pmap : QMultiMap QVariant) (hpm : pmap ∈ vmap) (e : Nat × QVariant) (he : e ∈ pmap)
    (hk : e.1 = p) : ∃ x, firstEntry vmap p = some x := by
  have hmem : e ∈ vmap.flatten := List.mem_flatten.mpr ⟨pmap, hpm, he⟩
  cases hf : List.find? (fun e => decide (e.1 = p)) vmap.flatten with
  | some a => exact ⟨a.2, by simp [firstEntry, hf]⟩
  | none =>
    have := List.find?_eq_none.mp hf e hmem
    simp [hk] at this

theorem openVidPid_no_entry (st : QHidApiPrivate) (hres : VendorEntriesResolved st)
    (v p : Nat) (s : String) (d : HidDevice)
    (hnone : firstEntry (st.mVendorMap.values v) p = none) :
    openVidPid st v p s d = openNewProduct st v p s d := by
  have hloop := vmapLoop_eq_firstEntry st p (st.mVendorMap.values v)
    (fun pm hpm pe hpe => hres (v, pm) (QMultiMap.mem_of_mem_values _ _ _ hpm) pe hpe)
  rw [hnone] at hloop
  unfold openVidPid
  split
  · rfl
  · simp [openProduct, hloop]

theorem openNewProduct_vendorMap (st : QHidApiPrivate) (v p : Nat) (s : String)
    (d : HidDevice) :
    (openNewProduct st v p s d).2.1.mVendorMap = st.mVendorMap ∨
    ∃ x, (openNewProduct st v p s d).2.1.mVendorMap
      = QMultiMap.insert st.mVendorMap v [(p, x)] := by
  unfold openNewProduct
  split <;> split
  · exact Or.inr ⟨QVariant.uint st.mNextId, by simp [nextId, QMultiMap.insert]⟩
  · exact Or.inl rfl
  · exact Or.inr ⟨QVariant.string s, by simp [nextId, QMultiMap.insert]⟩
  · exact Or.inl rfl

theorem openNewProduct_vendorMap_of_ne (st : QHidApiPrivate) (v p : Nat) (s : String)
    (d : HidDevice) (h : (openNewProduct st v p s d).1 ≠ 0) :
    ∃ x, (openNewProduct st v p s d).2.1.mVendorMap
      = QMultiMap.insert st.mVendorMap v [(p, x)] := by
  have hd : d ≠ NULL := by
    rintro rfl
    exact h (openNewProduct_fail st v p s).1
  unfold openNewProduct
  split
  · exact ⟨QVariant.uint st.mNextId, by simp [hd, nextId, QMultiMap.insert]⟩
  · exact ⟨QVariant.string s, by simp [hd, nextId, QMultiMap.insert]⟩

theorem openVidPid_vendorMap (st : QHidApiPrivate) (v p : Nat) (s : String) (d : HidDevice) :
    (openVidPid st v p s d).2.1.mVendorMap = st.mVendorMap ∨
    ∃ x, (openVidPid st v p s d).2.1.mVendorMap
      = QMultiMap.insert st.mVendorMap v [(p, x)] := by
  unfold openVidPid
  split
  · exact openNewProduct_vendorMap st v p s d
  · unfold openProduct
    split
    · exact Or.inl rfl
    · exact openNewProduct_vendorMap st v p s d

theorem openPath_vendorMap (st : QHidApiPrivate) (path : String) (d : HidDevice) :
    (openPath st path d).2.1.mVendorMap = st.mVendorMap := by
  unfold openPath
  split
  · rfl
  · split
    · rfl
    · split
      · rfl
      · simp [nextId]

theorem step_vendorMap_mem (st : QHidApiPrivate) (op : Op) (x : Nat × QMultiMap QVariant)
    (h : x ∈ st.mVendorMap) : x ∈ (step st op).mVendorMap := by
  cases op with
  | openVidPid v p s d =>
    rcases openVidPid_vendorMap st v p s d with heq | ⟨y, heq⟩
    · simp only [step, heq]; exact h
    · simp only [step, heq]; exact QMultiMap.mem_insert_of_mem _ _ _ _ h
  | openPath path d => simp only [step, openPath_vendorMap]; exact h
  | close id => simp only [step, close_state]; exact h

theorem run_vendorMap_mem (ops : List Op) (st : QHidApiPrivate)
    (x : Nat × QMultiMap QVariant) (h : x ∈ st.mVendorMap) : x ∈ (run st ops).mVendorMap := by
  induction ops generalizing st with
  | nil => exact h
  | cons op ops ih => exact ih (step st op) (step_vendorMap_mem st op x h)

theorem reachable_step (st : QHidApiPrivate) (op : Op) (h : Reachable st) :
    Reachable (step st op) := by
  cases op with
  | openVidPid v p s d => exact Reachable.openVidPid st v p s d h
  | openPath path d => exact Reachable.openPath st path d h
  | close id => exact Reachable.close st id h

theorem reachable_run (ops : List Op) (st : QHidApiPrivate) (h : Reachable st) :
    Reachable (run st ops) := by
  induction ops generalizing st with
  | nil => exact h
  | cons op ops ih => exact ih (step st op) (reachable_step st op h)

theorem entry_after_open (st : QHidApiPrivate) (hr : Reachable st) (v p : Nat) (s : String)
    (d : HidDevice) (h : (openVidPid st v p s d).1 ≠ 0) :
    ∃ pmap, (v, pmap) ∈ (openVidPid st v p s d).2.1.mVendorMap ∧ ∃ e ∈ pmap, e.1 = p := by
  cases hf : firstEntry (st.mVendorMap.values v) p with
  | some e =>
    rw [(open_registered_product st hr v p s d e hf).1]
    obtain ⟨pmap, hpm, hin⟩ := firstEntry_mem _ p e hf
    exact ⟨pmap, QMultiMap.mem_of_mem_values _ _ _ hpm, (p, e), hin, rfl⟩
  | none =>
    have heq := openVidPid_no_entry st (vendorEntriesResolved_of_reachable st hr) v p s d hf
    rw [heq] at h ⊢
    obtain ⟨x, hx⟩ := openNewProduct_vendorMap_of_ne st v p s d h
    rw [hx]
    refine ⟨[(p, x)], ?_, (p, x), List.mem_singleton.mpr rfl, rfl⟩
    have hv := QMultiMap.values_insert_self st.mVendorMap v [(p, x)]
    have hm : [(p, x)] ∈ (QMultiMap.insert st.mVendorMap v [(p, x)]).values v := by
      rw [hv]; exact List.mem_cons_self _ _
    exact QMultiMap.mem_of_mem_values _ _ _ hm

theorem entriesFor_unique (st : QHidApiPrivate) (hr : Reachable st) (v p : Nat) :
    (entriesFor st v p).length ≤ 1 := by
  induction hr generalizing v p with
  | construct => simp [entriesFor, QHidApiPrivate.construct, QMultiMap.values]
  | openVidPid st w q s d hst ih =>
    rcases openVidPid_vendorMap st w q s d with heq | ⟨x, heq⟩
    · simp only [entriesFor, heq]
      exact ih v p
    · cases hf : firstEntry (st.mVendorMap.values w) q with
      | some e =>
        rw [(open_registered_product st hst w q s d e hf).1]
        exact ih v p
      | none =>
        simp only [entriesFor, heq]
        by_cases hv : v = w
        · subst hv
          rw [QMultiMap.values_insert_self]
          simp only [List.flatten_cons, List.filter_append]
          by_cases hp : q = p
          · subst hp
            have hnil : List.filter (fun e => decide (e.1 = q))
                (st.mVendorMap.values v).flatten = [] := by
              rw [List.filter_eq_nil_iff]
              intro a ha
              cases hfind : List.find? (fun e => decide (e.1 = q))
                  (st.mVendorMap.values v).flatten with
              | some b => simp [firstEntry, hfind] at hf
              | none => exact List.find?_eq_none.mp hfind a ha
            rw [hnil]
            simp
          · have := ih v p
            simp only [entriesFor] at this
            simpa [hp] using this
        · rw [QMultiMap.values_insert_ne _ _ _ _ hv]
          exact ih v p
  | openPath st path d _ ih =>
    simp only [entriesFor, openPath_vendorMap]
    exact ih v p
  | close st id _ ih =>
    rw [close_state]
    exact ih v p

/-- C24. In every reachable state the vendor table holds at most one entry for
each `(vendorId, productId)` pair; and once an `open(vendorId, productId, s)` has
returned a non-zero handle, after any further sequence of operations every
`open(vendorId, productId, s2)`, whatever the serial number `s2` and the native
answer, issues no native call, leaves the state unchanged and allocates no
handle. -/
theorem one_entry_per_vendor_product (st : QHidApiPrivate) (hr : Reachable st) (v p : Nat) :
    (entriesFor st v p).length ≤ 1 ∧
    (∀ (s : String) (d : HidDevice), (openVidPid st v p s d).1 ≠ 0 →
      ∀ (ops : List Op) (s2 : String) (d2 : HidDevice),
        (openVidPid (run (openVidPid st v p s d).2.1 ops) v p s2 d2).2.2 = [] ∧
        (openVidPid (run (openVidPid st v p s d).2.1 ops) v p s2 d2).2.1
          = run (openVidPid st v p s d).2.1 ops ∧
        allocated (run (openVidPid st v p s d).2.1 ops) (Op.openVidPid v p s2 d2) = none) := by
  refine ⟨entriesFor_unique st hr v p, ?_⟩
  intro s d h ops s2 d2
  obtain ⟨pmap, hpm, e, he, hk⟩ := entry_after_open st hr v p s d h
  have hpm' := run_vendorMap_mem ops _ _ hpm
  have hr' := reachable_run ops _ (Reachable.openVidPid st v p s d hr)
  obtain ⟨x, hx⟩ := firstEntry_of_entry _ p pmap
    (QMultiMap.mem_values_of_mem _ _ _ hpm') e he hk
  have hopen := (open_registered_product _ hr' v p s2 d2 x hx).1
  refine ⟨by rw [hopen], by rw [hopen], ?_⟩
  simp [allocated, step, hopen]

theorem one_entry_per_vendor_product_witness :
    Reachable QHidApiPrivate.construct ∧
    (openVidPid QHidApiPrivate.construct 1 2 "A" 7).1 ≠ 0 ∧
    (openVidPid (run (openVidPid QHidApiPrivate.construct 1 2 "A" 7).2.1
      [Op.openPath "/dev/hidraw0" 8, Op.close 1]) 1 2 "B" 9).2.2 = [] :=
  ⟨Reachable.construct, by decide,
   ((one_entry_per_vendor_product QHidApiPrivate.construct Reachable.construct 1 2).2 "A" 7
      (by decide) [Op.openPath "/dev/hidraw0" 8, Op.close 1] "B" 9).1⟩

/-! ## The keys of the handle table -/

theorem QMap.contains_insert_iff {K V : Type} [DecidableEq K] (m : QMap K V) (k x : K) (v : V) :
    (QMap.insert m k v).contains x = true ↔ (x = k ∨ m.contains x = true) := by
  constructor
  · intro h
    by_cases hk : x = k
    · exact Or.inl hk
    · right
      rw [QMap.contains_iff] at h ⊢
      obtain ⟨e, he, hx⟩ := h
      rcases QMap.mem_insert m k v e he with rfl | he
      · exact absurd hx.symm hk
      · exact ⟨e, he, hx⟩
  · rintro (rfl | h)
    · exact QMap.contains_insert_self m x v
    · exact QMap.contains_insert_of_contains m k x v h

theorem openNewProduct_effect (st : QHidApiPrivate) (v p : Nat) (s : String) (d : HidDevice) :
    ((openNewProduct st v p s d).1 = 0 ∧ (openNewProduct st v p s d).2.1 = st) ∨
    (d ≠ NULL ∧ (openNewProduct st v p s d).1 = st.mNextId ∧
      (openNewProduct st v p s d).2.1.mNextId = (st.mNextId + 1) % 2 ^ 32 ∧
      (openNewProduct st v p s d).2.1.mIdDeviceMap
        = QMap.insert st.mIdDeviceMap st.mNextId d) := by
  by_cases hd : d = NULL
  · subst hd
    exact Or.inl (openNewProduct_fail st v p s)
  · right
    unfold openNewProduct
    split <;> simp [hd, nextId]

theorem openVidPid_effect (st : QHidApiPrivate) (v p : Nat) (s : String) (d : HidDevice) :
    (openVidPid st v p s d).2.1 = st ∨
    (d ≠ NULL ∧ (openVidPid st v p s d).1 = st.mNextId ∧
      (openVidPid st v p s d).2.1.mNextId = (st.mNextId + 1) % 2 ^ 32 ∧
      (openVidPid st v p s d).2.1.mIdDeviceMap
        = QMap.insert st.mIdDeviceMap st.mNextId d) := by
  unfold openVidPid
  split
  · rcases openNewProduct_effect st v p s d with h | h
    · exact Or.inl h.2
    · exact Or.inr h
  · unfold openProduct
    split
    · exact Or.inl rfl
    · rcases openNewProduct_effect st v p s d with h | h
      · exact Or.inl h.2
      · exact Or.inr h

theorem openPath_effect (st : QHidApiPrivate) (path : String) (d : HidDevice) :
    (openPath st path d).2.1 = st ∨
    (d ≠ NULL ∧ (openPath st path d).1 = st.mNextId ∧
      (openPath st path d).2.1.mNextId = (st.mNextId + 1) % 2 ^ 32 ∧
      (openPath st path d).2.1.mIdDeviceMap
        = QMap.insert st.mIdDeviceMap st.mNextId d) := by
  unfold openPath
  split
  · exact Or.inl rfl
  · split
    · exact Or.inl rfl
    · split
      · exact Or.inl rfl
      · rename_i hd _
        exact Or.inr ⟨hd, by simp [nextId]⟩

theorem step_effect (st : QHidApiPrivate) (op : Op) :
    step st op = st ∨
    ∃ d, d ≠ NULL ∧ (step st op).mNextId = (st.mNextId + 1) % 2 ^ 32 ∧
      (step st op).mIdDeviceMap = QMap.insert st.mIdDeviceMap st.mNextId d := by
  cases op with
  | openVidPid v p s d =>
    rcases openVidPid_effect st v p s d with h | ⟨hd, _, h2, h3⟩
    · exact Or.inl h
    · exact Or.inr ⟨d, hd, h2, h3⟩
  | openPath path d =>
    rcases openPath_effect st path d with h | ⟨hd, _, h2, h3⟩
    · exact Or.inl h
    · exact Or.inr ⟨d, hd, h2, h3⟩
  | close id => exact Or.inl (close_state st id)

theorem keysBelowCounter_step (st : QHidApiPrivate) (op : Op) (h : KeysBelowCounter st) :
    KeysBelowCounter (step st op) := by
  rcases step_effect st op with heq | ⟨d, _, hn, hm⟩
  · rw [heq]; exact h
  · refine ⟨by rw [hn]; exact Nat.mod_lt _ (by norm_num), ?_⟩
    rintro ⟨hx, h0⟩ k
    rw [hm] at h0 ⊢
    have hx0 : st.mNextId ≠ 0 := by
      intro hz
      rw [hz, QMap.contains_insert_self] at h0
      exact Bool.noConfusion h0
    have h00 : st.mIdDeviceMap.contains 0 = false := by
      rw [Bool.eq_false_iff]
      intro hc
      rw [QMap.contains_insert_of_contains _ _ _ _ hc] at h0
      exact Bool.noConfusion h0
    have hold := h.2 ⟨hx0, h00⟩ k
    have hlt := h.1
    rw [hn] at hx ⊢
    rw [QMap.contains_insert_iff, hold]
    omega

theorem devicesNonNull_step (st : QHidApiPrivate) (op : Op) (h : DevicesNonNull st) :
    DevicesNonNull (step st op) := by
  rcases step_effect st op with heq | ⟨d, hd, _, hm⟩
  · rw [heq]; exact h
  · intro e he
    rw [hm] at he
    rcases QMap.mem_insert _ _ _ _ he with rfl | he
    · exact hd
    · exact h e he

theorem keysBelowCounter_of_reachable (st : QHidApiPrivate) (hr : Reachable st) :
    KeysBelowCounter st := by
  induction hr with
  | construct =>
    refine ⟨by decide, ?_⟩
    intro _ k
    simp [QHidApiPrivate.construct, QMap.contains]
    omega
  | openVidPid st v p s d _ ih => exact keysBelowCounter_step st (Op.openVidPid v p s d) ih
  | openPath st path d _ ih => exact keysBelowCounter_step st (Op.openPath path d) ih
  | close st id _ ih => exact keysBelowCounter_step st (Op.close id) ih

theorem devicesNonNull_of_reachable (st : QHidApiPrivate) (hr : Reachable st) :
    DevicesNonNull st := by
  induction hr with
  | construct => simp [DevicesNonNull, QHidApiPrivate.construct]
  | openVidPid st v p s d _ ih => exact devicesNonNull_step st (Op.openVidPid v p s d) ih
  | openPath st path d _ ih => exact devicesNonNull_step st (Op.openPath path d) ih
  | close st id _ ih => exact devicesNonNull_step st (Op.close id) ih

theorem findId_of_contains (st : QHidApiPrivate) (hn : DevicesNonNull st) (k : Nat)
    (h : st.mIdDeviceMap.contains k = true) : findId st k ≠ NULL := by
  obtain ⟨e, he, _, hv⟩ := QMap.value_of_contains st.mIdDeviceMap k NULL h
  simp only [findId, h, if_true]
  rw [hv]
  exact hn e he

theorem openVidPid_returns_key (st : QHidApiPrivate) (hr : Reachable st) (v p : Nat)
    (s : String) (d : HidDevice) (h : (openVidPid st v p s d).1 ≠ 0) :
    (openVidPid st v p s d).2.1.mIdDeviceMap.contains (openVidPid st v p s d).1 = true := by
  cases hf : firstEntry (st.mVendorMap.values v) p with
  | some e =>
    have ho := open_registered_product st hr v p s d e hf
    rw [ho.1]
    exact ho.2
  | none =>
    have heq := openVidPid_no_entry st (vendorEntriesResolved_of_reachable st hr) v p s d hf
    rw [heq] at h ⊢
    rcases openNewProduct_effect st v p s d with h0 | ⟨_, h1, _, h3⟩
    · exact absurd h0.1 h
    · rw [h3, h1]
      exact QMap.contains_insert_self _ _ _

theorem openPath_returns_key (st : QHidApiPrivate) (hr : Reachable st) (path : String)
    (d : HidDevice) (h : (openPath st path d).1 ≠ 0) :
    (openPath st path d).2.1.mIdDeviceMap.contains (openPath st path d).1 = true := by
  have hreg := handlesRegistered_of_reachable st hr
  by_cases hc : st.mPathMap.contains path = true
  · obtain ⟨e, he, _, hv⟩ := QMap.value_of_contains st.mPathMap path 0 hc
    simp only [openPath, hc, if_true]
    rw [hv]
    exact hreg.1 e he
  · by_cases hd : d = NULL
    · simp [openPath, hc, hd] at h
    · by_cases hc2 : st.mDeviceIdMap.contains d = true
      · obtain ⟨e, he, _, hv⟩ := QMap.value_of_contains st.mDeviceIdMap d 0 hc2
        simp only [openPath, hc, hd, hc2, if_true, if_false, Bool.false_eq_true]
        rw [hv]
        exact hreg.2.2.1 e he
      · simp only [openPath, hc, hd, hc2, if_false, Bool.false_eq_true, nextId]
        exact QMap.contains_insert_self _ _ _

theorem run_counter (ops : List Op) (st : QHidApiPrivate) (hlt : st.mNextId < 2 ^ 32) :
    (run st ops).mNextId = (st.mNextId + (allocations st ops).length) % 2 ^ 32 := by
  induction ops generalizing st with
  | nil =>
    simp only [run, allocations, List.foldl_nil, List.length_nil, Nat.add_zero]
    omega
  | cons op ops ih =>
    have hrun : run st (op :: ops) = run (step st op) ops := rfl
    rcases allocated_cases st op with ⟨ha, hn⟩ | ⟨ha, hn⟩
    · rw [hrun, ih (step st op) (by rw [hn]; exact hlt), hn]
      simp [allocations, ha]
    · rw [hrun, ih (step st op) (by rw [hn]; exact Nat.mod_lt _ (by norm_num)), hn]
      simp only [allocations, ha, List.length_cons]
      omega

theorem run_keys (ops : List Op) (st : QHidApiPrivate) (k : Nat)
    (h : (run st ops).mIdDeviceMap.contains k = true) :
    st.mIdDeviceMap.contains k = true ∨ k ∈ allocations st ops := by
  induction ops generalizing st with
  | nil => exact Or.inl h
  | cons op ops ih =>
    have hrun : run st (op :: ops) = run (step st op) ops := rfl
    rw [hrun] at h
    rcases ih (step st op) h with hc | hmem
    · rcases step_effect st op with heq | ⟨d, _, hn, hm⟩
      · rw [heq] at hc; exact Or.inl hc
      · rw [hm, QMap.contains_insert_iff] at hc
        rcases hc with rfl | hc
        · right
          rcases allocated_cases st op with ⟨_, hsame⟩ | ⟨ha, _⟩
          · rw [hn] at hsame
            exact absurd hsame (counter_moves _)
          · simp [allocations, ha]
        · exact Or.inl hc
    · right
      cases ha : allocated st op with
      | some x => simp [allocations, ha, hmem]
      | none => simpa [allocations, ha] using hmem

theorem counterNotWrapped_run (ops : List Op)
    (hlen : (allocations QHidApiPrivate.construct ops).length < 2 ^ 32 - 1) :
    CounterNotWrapped (run QHidApiPrivate.construct ops) := by
  have h1 : (QHidApiPrivate.construct).mNextId = 1 := rfl
  constructor
  · rw [run_counter ops QHidApiPrivate.construct (by decide), h1]
    omega
  · rw [Bool.eq_false_iff]
    intro hc
    rcases run_keys ops QHidApiPrivate.construct 0 hc with h | h
    · simp [QHidApiPrivate.construct, QMap.contains] at h
    · rw [allocations_eq ops QHidApiPrivate.construct (by decide), h1] at h
      simp only [List.mem_map, List.mem_range] at h
      obtain ⟨i, hi, h0⟩ := h
      omega

/-- C25. In every reachable state in which the 32-bit counter has not wrapped
around (in particular after every sequence of operations on a fresh registry
that allocated fewer than `2^32 - 1` handles) the keys of the id-to-device table
are exactly the integers `1 .. mNextId - 1`, and every handle stored in the path
table, the serial table, the device-to-id table or as an integer value in the
vendor table is one of those keys.  Every non-zero value returned by either open
resolves through `findId`, in the state the open leaves, to a non-null device. -/
theorem handle_keys_are_initial_segment (st : QHidApiPrivate) (ops : List Op)
    (hr : Reachable st) (hw : CounterNotWrapped st) :
    (∀ k, st.mIdDeviceMap.contains k = true ↔ (1 ≤ k ∧ k ≤ st.mNextId - 1)) ∧
    (∀ e ∈ st.mPathMap, 1 ≤ e.2 ∧ e.2 ≤ st.mNextId - 1) ∧
    (∀ e ∈ st.mSerDevices, 1 ≤ e.2 ∧ e.2 ≤ st.mNextId - 1) ∧
    (∀ e ∈ st.mDeviceIdMap, 1 ≤ e.2 ∧ e.2 ≤ st.mNextId - 1) ∧
    (∀ vm ∈ st.mVendorMap, ∀ pe ∈ vm.2, ∀ id, pe.2 = QVariant.uint id →
      1 ≤ id ∧ id ≤ st.mNextId - 1) ∧
    (∀ (v p : Nat) (s : String) (d : HidDevice), (openVidPid st v p s d).1 ≠ 0 →
      findId (openVidPid st v p s d).2.1 (openVidPid st v p s d).1 ≠ NULL) ∧
    (∀ (path : String) (d : HidDevice), (openPath st path d).1 ≠ 0 →
      findId (openPath st path d).2.1 (openPath st path d).1 ≠ NULL) ∧
    ((allocations QHidApiPrivate.construct ops).length < 2 ^ 32 - 1 →
      Reachable (run QHidApiPrivate.construct ops) ∧
      CounterNotWrapped (run QHidApiPrivate.construct ops)) := by
  have hkeys := (keysBelowCounter_of_reachable st hr).2 hw
  have hreg := handlesRegistered_of_reachable st hr
  have hres := vendorEntriesResolved_of_reachable st hr
  have hpos : st.mNextId ≠ 0 := hw.1
  have hk : ∀ k, st.mIdDeviceMap.contains k = true ↔ (1 ≤ k ∧ k ≤ st.mNextId - 1) := by
    intro k
    rw [hkeys k]
    omega
  refine ⟨hk, ?_, ?_, ?_, ?_, ?_, ?_, ?_⟩
  · exact fun e he => (hk e.2).mp (hreg.1 e he)
  · exact fun e he => (hk e.2).mp (hreg.2.1 e he)
  · exact fun e he => (hk e.2).mp (hreg.2.2.1 e he)
  · intro vm hvm pe hpe id hid
    rcases hres vm hvm pe hpe with ⟨id2, hid2, hc⟩ | ⟨sn, hsn⟩
    · rw [hid] at hid2
      cases hid2
      exact (hk id).mp hc
    · rw [hid] at hsn
      cases hsn
  · intro v p s d h
    exact findId_of_contains _
      (devicesNonNull_of_reachable _ (Reachable.openVidPid st v p s d hr)) _
      (openVidPid_returns_key st hr v p s d h)
  · intro path d h
    exact findId_of_contains _
      (devicesNonNull_of_reachable _ (Reachable.openPath st path d hr)) _
      (openPath_returns_key st hr path d h)
  · intro hlen
    exact ⟨reachable_run ops _ Reachable.construct, counterNotWrapped_run ops hlen⟩

theorem handle_keys_are_initial_segment_witness :
    Reachable (openVidPid QHidApiPrivate.construct 1 2 "A" 7).2.1 ∧
    CounterNotWrapped (openVidPid QHidApiPrivate.construct 1 2 "A" 7).2.1 ∧
    (∀ k, (openVidPid QHidApiPrivate.construct 1 2 "A" 7).2.1.mIdDeviceMap.contains k = true ↔
      (1 ≤ k ∧ k ≤ (openVidPid QHidApiPrivate.construct 1 2 "A" 7).2.1.mNextId - 1)) ∧
    findId (openPath (openVidPid QHidApiPrivate.construct 1 2 "A" 7).2.1 "/dev/hidraw0" 8).2.1
      (openPath (openVidPid QHidApiPrivate.construct 1 2 "A" 7).2.1 "/dev/hidraw0" 8).1 ≠ NULL :=
  ⟨Reachable.openVidPid _ 1 2 "A" 7 Reachable.construct, ⟨by decide, by decide⟩,
   (handle_keys_are_initial_segment (openVidPid QHidApiPrivate.construct 1 2 "A" 7).2.1
      [Op.openVidPid 1 2 "A" 7]
      (Reachable.openVidPid _ 1 2 "A" 7 Reachable.construct) ⟨by decide, by decide⟩).1,
   (handle_keys_are_initial_segment (openVidPid QHidApiPrivate.construct 1 2 "A" 7).2.1
      [Op.openVidPid 1 2 "A" 7]
      (Reachable.openVidPid _ 1 2 "A" 7 Reachable.construct)
      ⟨by decide, by decide⟩).2.2.2.2.2.2.1 "/dev/hidraw0" 8 (by decide)⟩

end QHidApi
